import Mathlib

/-!
Sanitizer metadata emission (`lib/CodeGen/SanitizerMetadata.cpp`)

A shallow embedding of `SanitizerMetadata::reportGlobalToASan` (both overloads) and
`SanitizerMetadata::disableSanitizerForGlobal`.

The C++ code works on one `CodeGenModule`.  Its read-only collaborators (language options,
sanitizer blacklist, source manager) are gathered in `CodeGenModule`; everything the three
functions mutate (the module's global list, the `llvm.compiler.used` list, the named metadata)
is gathered in `Module` and passed explicitly.

Pointers to global variables are positions in the module's global list: the global created by
`new llvm::GlobalVariable(Module, ...)` is appended to that list, so its pointer is the length
of the list before the call.  A null pointer is `none`.
-/

namespace SanitizerMetadata

/-! ## Data model -/

/-- A `clang::SourceLocation`, an opaque token (its raw encoding). -/
abbrev SourceLocation := Nat

/-- A pointer to a global variable of the module: its position in `Module.GlobalList`. -/
abbrev GlobalRef := Nat

/-- Modelled from the spec: `clang::PresumedLoc` (declared in `Basic/SourceLocation.h`, absent
here): "a presumed location (filename, line, column) or indicates it cannot be resolved".
`Filename` is the `const char *` of the original, null (`none`) for an invalid location;
`Line` and `Col` are `unsigned`. -/
structure PresumedLoc where
  Filename : Option String
  Line : Nat
  Col : Nat
  deriving DecidableEq, Repr

/-- The test `PresumedLoc::isValid()`: the filename pointer is not null. -/
def PresumedLoc.isValid (PLoc : PresumedLoc) : Bool :=
  PLoc.Filename.isSome

/-- A `clang::VarDecl`, as far as the declaration form reads it: `D.getLocation()` and the text
that `D.printQualifiedName(OS)` writes to the stream. -/
structure VarDecl where
  getLocation : SourceLocation
  printQualifiedName : String
  deriving DecidableEq, Repr

/-- The constants that the emitter builds. -/
inductive Constant where
  /-- The value of `llvm::ConstantInt::get(IntNTy, V)`. -/
  | ConstantInt (BitWidth : Nat) (V : Nat)
  /-- The address of a global variable used as a constant operand. -/
  | GlobalAddress (GV : GlobalRef)
  deriving DecidableEq, Repr

/-- The initializer of a global variable. -/
inductive Initializer where
  /-- The data of a C string constant: the text, followed by its terminating NUL. -/
  | CString (Str : String)
  /-- The value of `llvm::ConstantStruct::getAnon(Elts)`. -/
  | AnonStruct (Elts : List Constant)
  /-- Any other initializer (globals that the emitter did not create). -/
  | Other (Tag : Nat)
  deriving DecidableEq, Repr

/-- The linkage kinds that occur. -/
inductive LinkageTypes where
  | ExternalLinkage
  | InternalLinkage
  | PrivateLinkage
  deriving DecidableEq, Repr

/-- An `llvm::GlobalVariable` object.  The requested name (`".asan_loc_descr"`) is not kept: the
module renames private globals to keep names unique. -/
structure GlobalVariable where
  isConstant : Bool
  Linkage : LinkageTypes
  UnnamedAddr : Bool
  Init : Initializer
  deriving DecidableEq, Repr

/-- The metadata node built from `GlobalMetadata[]` (source lines 62-67): five operands,
`{GV, LocDescr, GlobalName, i1 IsDynInit, i1 IsBlacklisted}`.  A null operand is `none`; an
`i1` constant is its Boolean. -/
structure MDNode where
  GV : GlobalRef
  LocDescr : Option GlobalRef
  GlobalName : Option GlobalRef
  IsDynInit : Bool
  IsBlacklisted : Bool
  deriving DecidableEq, Repr

/-- An `llvm::NamedMDNode`: a named list of metadata nodes. -/
structure NamedMDNode where
  Name : String
  Operands : List MDNode
  deriving DecidableEq, Repr

/-- The mutable part of the compilation: the module's global variables, the
`llvm.compiler.used` list kept by the code generator, and the module's named metadata. -/
structure Module where
  GlobalList : List GlobalVariable
  LLVMCompilerUsed : List GlobalRef
  NamedMDList : List NamedMDNode
  deriving DecidableEq, Repr

/-- The read-only collaborators reached through `CGM`:
`getLangOpts().Sanitize.Address`, `getSanitizerBlacklist().isIn(G, Category)` (the category is
`""` when the argument is left out) and `getContext().getSourceManager().getPresumedLoc(Loc)`. -/
structure CodeGenModule where
  SanitizeAddress : Bool
  isIn : GlobalRef → String → Bool
  getPresumedLoc : SourceLocation → PresumedLoc

/-! ## The IR builder -/

/-- The value of `llvm::ConstantInt::get(Ty, V)` for an integer type of `BitWidth` bits: the
value is truncated to the width. -/
def ConstantInt.get (BitWidth : Nat) (V : Nat) : Constant :=
  Constant.ConstantInt BitWidth (V % 2 ^ BitWidth)

/-- The effect of `new llvm::GlobalVariable(M, Ty, isConstant, Linkage, Initializer, Name)`:
the new global is appended to the module's global list; the result is its pointer. -/
def newGlobalVariable (M : Module) (isConstant : Bool) (Linkage : LinkageTypes)
    (Init : Initializer) : GlobalRef × Module :=
  (M.GlobalList.length,
    { M with GlobalList := M.GlobalList ++ [⟨isConstant, Linkage, false, Init⟩] })

/-- The effect of `GV->setUnnamedAddr(V)`. -/
def setUnnamedAddr (M : Module) (GV : GlobalRef) (V : Bool) : Module :=
  match M.GlobalList[GV]? with
  | some G => { M with GlobalList := M.GlobalList.set GV { G with UnnamedAddr := V } }
  | none => M

/-- Modelled from the spec: `CodeGenModule::GetAddrOfConstantCString` (defined in
`CodeGenModule.cpp`, absent here): it "creates a private, unnamed-address string constant for a
given text". -/
def GetAddrOfConstantCString (M : Module) (Str : String) : GlobalRef × Module :=
  let R := newGlobalVariable M true LinkageTypes.PrivateLinkage (Initializer.CString Str)
  (R.1, setUnnamedAddr R.2 R.1 true)

/-- Modelled from the spec: `CodeGenModule::addCompilerUsedGlobal` (defined in
`CodeGenModule.cpp`, absent here): it marks a value "as preserved against optimizer removal",
on "an explicit append-only set owned by the module context". -/
def addCompilerUsedGlobal (M : Module) (GV : GlobalRef) : Module :=
  { M with LLVMCompilerUsed := M.LLVMCompilerUsed ++ [GV] }

/-- The lookup `Module::getNamedMetadata(Name)` on the list of named metadata: the operands of
the first node of that name. -/
def findNamedMetadata : List NamedMDNode → String → Option (List MDNode)
  | [], _ => none
  | N :: L, Name => if N.Name = Name then some N.Operands else findNamedMetadata L Name

/-- The effect of `Module::getOrInsertNamedMetadata(Name)`: a node of that name is created,
without operands, when the module has none.  The node is then referred to by its name. -/
def getOrInsertNamedMetadata (M : Module) (Name : String) : Module :=
  match findNamedMetadata M.NamedMDList Name with
  | some _ => M
  | none => { M with NamedMDList := M.NamedMDList ++ [⟨Name, []⟩] }

/-- The effect of `NamedMDNode::addOperand(N)` on the list of named metadata, for the node called
`Name`. -/
def addOperandIn : List NamedMDNode → String → MDNode → List NamedMDNode
  | [], _, _ => []
  | N :: L, Name, Op =>
    if N.Name = Name then { N with Operands := N.Operands ++ [Op] } :: L
    else N :: addOperandIn L Name Op

/-- The effect of `NamedMDNode::addOperand(N)` on the module. -/
def addOperand (M : Module) (Name : String) (Op : MDNode) : Module :=
  { M with NamedMDList := addOperandIn M.NamedMDList Name Op }

/-! ## The emitter -/

/-- The body of `if (PLoc.isValid()) { ... }` (source lines 38-54): the location descriptor is
built from the presumed location, created as a private constant global, given an unnamed
address and added to `llvm.compiler.used`.  The result is `LocDescr`. -/
def emitLocDescr (M : Module) (PLoc : PresumedLoc) : Option GlobalRef × Module :=
  match PLoc.Filename with
  | none => (none, M)
  | some Filename =>
    let F := GetAddrOfConstantCString M Filename
    let LocData : List Constant :=
      [Constant.GlobalAddress F.1, ConstantInt.get 32 PLoc.Line, ConstantInt.get 32 PLoc.Col]
    let LocStruct := Initializer.AnonStruct LocData
    let G := newGlobalVariable F.2 true LinkageTypes.PrivateLinkage LocStruct
    let M1 := setUnnamedAddr G.2 G.1 true
    (some G.1, addCompilerUsedGlobal M1 G.1)

/-- The body of `if (!Name.empty()) { ... }` (source lines 55-59).  The result is
`GlobalName`. -/
def emitGlobalName (M : Module) (Name : String) : Option GlobalRef × Module :=
  if Name.isEmpty then (none, M)
  else
    let N := GetAddrOfConstantCString M Name
    (some N.1, addCompilerUsedGlobal N.2 N.1)

/-- The explicit form
`SanitizerMetadata::reportGlobalToASan(GV, Loc, Name, IsDynInit, IsBlacklisted)`
(source lines 23-71). -/
def reportGlobalToASan (CGM : CodeGenModule) (M : Module) (GV : GlobalRef)
    (Loc : SourceLocation) (Name : String) (IsDynInit : Bool) (IsBlacklisted : Bool) : Module :=
  if !CGM.SanitizeAddress then M
  else
    let IsDynInit := IsDynInit && !CGM.isIn GV "init"
    let IsBlacklisted := IsBlacklisted || CGM.isIn GV ""
    let L : Option GlobalRef × Module :=
      if !IsBlacklisted then emitLocDescr M (CGM.getPresumedLoc Loc) else (none, M)
    let N : Option GlobalRef × Module :=
      if !IsBlacklisted then emitGlobalName L.2 Name else (none, L.2)
    let ThisGlobal : MDNode := ⟨GV, L.1, N.1, IsDynInit, IsBlacklisted⟩
    let M1 := getOrInsertNamedMetadata N.2 "llvm.asan.globals"
    addOperand M1 "llvm.asan.globals" ThisGlobal

/-- The declaration form `SanitizerMetadata::reportGlobalToASan(GV, D, IsDynInit)`
(source lines 73-81).  The call leaves `IsBlacklisted` to its default, which the spec gives as
false. -/
def reportGlobalToASanDecl (CGM : CodeGenModule) (M : Module) (GV : GlobalRef) (D : VarDecl)
    (IsDynInit : Bool) : Module :=
  if !CGM.SanitizeAddress then M
  else
    let QualName := D.printQualifiedName
    reportGlobalToASan CGM M GV D.getLocation QualName IsDynInit false

/-- The function `SanitizerMetadata::disableSanitizerForGlobal(GV)` (source lines 83-88);
`SourceLocation()` is the location with raw encoding 0. -/
def disableSanitizerForGlobal (CGM : CodeGenModule) (M : Module) (GV : GlobalRef) : Module :=
  if CGM.SanitizeAddress then reportGlobalToASan CGM M GV 0 "" false true
  else M

/-- The records of the `llvm.asan.globals` table; none when the table does not exist. -/
def asanGlobals (M : Module) : List MDNode :=
  (findNamedMetadata M.NamedMDList "llvm.asan.globals").getD []

/-- The global variable that a pointer refers to. -/
def deref (M : Module) (GV : GlobalRef) : Option GlobalVariable :=
  M.GlobalList[GV]?

/-! ## Sequences of calls -/

/-- One call of the emitter: the explicit form, the declaration form, or
`disableSanitizerForGlobal`, with its arguments. -/
inductive Call where
  | report (GV : GlobalRef) (Loc : SourceLocation) (Name : String) (IsDynInit : Bool)
      (IsBlacklisted : Bool)
  | reportDecl (GV : GlobalRef) (D : VarDecl) (IsDynInit : Bool)
  | disable (GV : GlobalRef)
  deriving DecidableEq, Repr

/-- The global that a call registers. -/
def Call.GV : Call → GlobalRef
  | Call.report GV _ _ _ _ => GV
  | Call.reportDecl GV _ _ => GV
  | Call.disable GV => GV

/-- The effect of one call on the module. -/
def Call.run (CGM : CodeGenModule) (M : Module) : Call → Module
  | Call.report GV Loc Name IsDynInit IsBlacklisted =>
    reportGlobalToASan CGM M GV Loc Name IsDynInit IsBlacklisted
  | Call.reportDecl GV D IsDynInit => reportGlobalToASanDecl CGM M GV D IsDynInit
  | Call.disable GV => disableSanitizerForGlobal CGM M GV

/-- The effect of a sequence of calls, made in order. -/
def runCalls (CGM : CodeGenModule) (M : Module) (Cs : List Call) : Module :=
  Cs.foldl (Call.run CGM) M

/-- The preservation property of a module: every location descriptor and every name constant
that a record of the `llvm.asan.globals` table refers to is in `llvm.compiler.used`. -/
def Preserved (M : Module) : Prop :=
  ∀ R ∈ asanGlobals M,
    (∀ P : GlobalRef, R.LocDescr = some P → P ∈ M.LLVMCompilerUsed) ∧
    (∀ P : GlobalRef, R.GlobalName = some P → P ∈ M.LLVMCompilerUsed)

/-! ## Traces

The emitter once more, recording what it does.  Every change of the module goes through
`Traced.exec`, which applies one primitive effect and writes it to the log, so the log lists the
effects of a call in the order in which the call performs them. -/

/-- One primitive step of the emitter. -/
inductive Event where
  /-- The statement `new llvm::GlobalVariable(M, Ty, isConstant, Linkage, Init, Name)`. -/
  | NewGlobalVariable (isConstant : Bool) (Linkage : LinkageTypes) (Init : Initializer)
  /-- The statement `GV->setUnnamedAddr(V)`. -/
  | SetUnnamedAddr (GV : GlobalRef) (V : Bool)
  /-- The statement `CGM.addCompilerUsedGlobal(GV)`. -/
  | AddCompilerUsedGlobal (GV : GlobalRef)
  /-- The statement `llvm::MDNode::get(VMContext, Ops)`: the record is built.  The node lives in
  the LLVM context; the module is not changed. -/
  | MDNodeGet (Op : MDNode)
  /-- The statement `CGM.getModule().getOrInsertNamedMetadata(Name)`. -/
  | GetOrInsertNamedMetadata (Name : String)
  /-- The statement `NamedMD->addOperand(Op)` on the node called `Name`. -/
  | AddOperand (Name : String) (Op : MDNode)
  deriving DecidableEq, Repr

/-- The effect of one step on the module. -/
def Event.apply (M : Module) : Event → Module
  | Event.NewGlobalVariable isConstant Linkage Init =>
    (newGlobalVariable M isConstant Linkage Init).2
  | Event.SetUnnamedAddr GV V => setUnnamedAddr M GV V
  | Event.AddCompilerUsedGlobal GV => addCompilerUsedGlobal M GV
  | Event.MDNodeGet _ => M
  | Event.GetOrInsertNamedMetadata Name => getOrInsertNamedMetadata M Name
  | Event.AddOperand Name Op => addOperand M Name Op

/-- The record that a step refers to: the one it builds or the one it appends. -/
def Event.Op : Event → Option MDNode
  | Event.MDNodeGet Op => some Op
  | Event.AddOperand _ Op => some Op
  | _ => none

/-- A module together with the log of the steps performed so far. -/
structure Traced where
  M : Module
  Log : List Event
  deriving DecidableEq, Repr

/-- Perform one step: apply its effect and write it to the log. -/
def Traced.exec (T : Traced) (E : Event) : Traced :=
  ⟨E.apply T.M, T.Log ++ [E]⟩

/-- The module reached from `M` by the steps of a log, in order. -/
def replay (M : Module) (Log : List Event) : Module :=
  Log.foldl Event.apply M

/-- The statement `new llvm::GlobalVariable(...)`, recorded. -/
def newGlobalVariableT (T : Traced) (isConstant : Bool) (Linkage : LinkageTypes)
    (Init : Initializer) : GlobalRef × Traced :=
  (T.M.GlobalList.length, T.exec (Event.NewGlobalVariable isConstant Linkage Init))

/-- Modelled from the spec: `CodeGenModule::GetAddrOfConstantCString` (absent here), recorded:
it "creates a private, unnamed-address string constant for a given text". -/
def GetAddrOfConstantCStringT (T : Traced) (Str : String) : GlobalRef × Traced :=
  let R := newGlobalVariableT T true LinkageTypes.PrivateLinkage (Initializer.CString Str)
  (R.1, R.2.exec (Event.SetUnnamedAddr R.1 true))

/-- The body of `if (PLoc.isValid()) { ... }` (source lines 38-54), recorded statement by
statement: the filename string (line 40), the descriptor (lines 46-49), `setUnnamedAddr`
(line 50), `addCompilerUsedGlobal` (line 53). -/
def emitLocDescrT (T : Traced) (PLoc : PresumedLoc) : Option GlobalRef × Traced :=
  match PLoc.Filename with
  | none => (none, T)
  | some Filename =>
    let F := GetAddrOfConstantCStringT T Filename
    let LocData : List Constant :=
      [Constant.GlobalAddress F.1, ConstantInt.get 32 PLoc.Line, ConstantInt.get 32 PLoc.Col]
    let LocStruct := Initializer.AnonStruct LocData
    let G := newGlobalVariableT F.2 true LinkageTypes.PrivateLinkage LocStruct
    let T1 := G.2.exec (Event.SetUnnamedAddr G.1 true)
    (some G.1, T1.exec (Event.AddCompilerUsedGlobal G.1))

/-- The body of `if (!Name.empty()) { ... }` (source lines 55-59), recorded: the name string
(line 56), `addCompilerUsedGlobal` (line 58). -/
def emitGlobalNameT (T : Traced) (Name : String) : Option GlobalRef × Traced :=
  if Name.isEmpty then (none, T)
  else
    let N := GetAddrOfConstantCStringT T Name
    (some N.1, N.2.exec (Event.AddCompilerUsedGlobal N.1))

/-- The explicit form `SanitizerMetadata::reportGlobalToASan` (source lines 23-71), recorded:
after the two emission blocks, the record is built (line 67), the table is fetched or created
(line 69) and the record is appended (line 70). -/
def reportGlobalToASanT (CGM : CodeGenModule) (T : Traced) (GV : GlobalRef)
    (Loc : SourceLocation) (Name : String) (IsDynInit : Bool) (IsBlacklisted : Bool) : Traced :=
  if !CGM.SanitizeAddress then T
  else
    let IsDynInit := IsDynInit && !CGM.isIn GV "init"
    let IsBlacklisted := IsBlacklisted || CGM.isIn GV ""
    let L : Option GlobalRef × Traced :=
      if !IsBlacklisted then emitLocDescrT T (CGM.getPresumedLoc Loc) else (none, T)
    let N : Option GlobalRef × Traced :=
      if !IsBlacklisted then emitGlobalNameT L.2 Name else (none, L.2)
    let GlobalMetadata : MDNode := ⟨GV, L.1, N.1, IsDynInit, IsBlacklisted⟩
    let T1 := N.2.exec (Event.MDNodeGet GlobalMetadata)
    let T2 := T1.exec (Event.GetOrInsertNamedMetadata "llvm.asan.globals")
    T2.exec (Event.AddOperand "llvm.asan.globals" GlobalMetadata)

/-- The declaration form (source lines 73-81), recorded. -/
def reportGlobalToASanDeclT (CGM : CodeGenModule) (T : Traced) (GV : GlobalRef) (D : VarDecl)
    (IsDynInit : Bool) : Traced :=
  if !CGM.SanitizeAddress then T
  else
    let QualName := D.printQualifiedName
    reportGlobalToASanT CGM T GV D.getLocation QualName IsDynInit false

/-- The function `disableSanitizerForGlobal` (source lines 83-88), recorded. -/
def disableSanitizerForGlobalT (CGM : CodeGenModule) (T : Traced) (GV : GlobalRef) : Traced :=
  if CGM.SanitizeAddress then reportGlobalToASanT CGM T GV 0 "" false true
  else T

/-- One call, recorded. -/
def Call.runT (CGM : CodeGenModule) (T : Traced) : Call → Traced
  | Call.report GV Loc Name IsDynInit IsBlacklisted =>
    reportGlobalToASanT CGM T GV Loc Name IsDynInit IsBlacklisted
  | Call.reportDecl GV D IsDynInit => reportGlobalToASanDeclT CGM T GV D IsDynInit
  | Call.disable GV => disableSanitizerForGlobalT CGM T GV

/-! ## Sample collaborators -/

/-- A blank module. -/
def emptyModule : Module := ⟨[], [], []⟩

/-- A module with two globals of the program, an unrelated named metadata node and no
`llvm.asan.globals` table. -/
def sampleModule : Module :=
  ⟨[⟨false, LinkageTypes.ExternalLinkage, false, Initializer.Other 0⟩,
    ⟨false, LinkageTypes.InternalLinkage, false, Initializer.Other 1⟩],
   [],
   [⟨"llvm.ident", []⟩]⟩

/-- A compilation with address-sanitizer mode on, an empty blacklist, and a source manager that
resolves location 7 to `a.c:10:3` and nothing else. -/
def sampleCGM : CodeGenModule :=
  ⟨true, fun _ _ => false,
   fun Loc => if Loc = 7 then ⟨some "a.c", 10, 3⟩ else ⟨none, 0, 0⟩⟩

/-- The compilation `sampleCGM` with address-sanitizer mode off. -/
def sampleCGMOff : CodeGenModule :=
  { sampleCGM with SanitizeAddress := false }

/-- The compilation `sampleCGM` with a blacklist that holds global 1 in full and global 0 in
the `init` category only. -/
def sampleCGMBlacklist : CodeGenModule :=
  { sampleCGM with
    isIn := fun G Category => (G == 1) || ((G == 0) && (Category == "init")) }

/-- The compilation `sampleCGM` with a blacklist that holds global 1 in full, by an entry
without category, and in no named category. -/
def sampleCGMFullOnly : CodeGenModule :=
  { sampleCGM with isIn := fun G Category => (G == 1) && (Category == "") }

/-! ## Auxiliary facts about the IR builder -/

theorem setUnnamedAddr_newGlobalVariable (M : Module) (isConstant : Bool)
    (Linkage : LinkageTypes) (Init : Initializer) (V : Bool) :
    setUnnamedAddr (newGlobalVariable M isConstant Linkage Init).2
        (newGlobalVariable M isConstant Linkage Init).1 V =
      { M with GlobalList := M.GlobalList ++ [⟨isConstant, Linkage, V, Init⟩] } := by
  simp [newGlobalVariable, setUnnamedAddr]

theorem GetAddrOfConstantCString_eq (M : Module) (Str : String) :
    GetAddrOfConstantCString M Str =
      (M.GlobalList.length,
        { M with GlobalList := M.GlobalList ++
            [⟨true, LinkageTypes.PrivateLinkage, true, Initializer.CString Str⟩] }) := by
  simp only [GetAddrOfConstantCString, setUnnamedAddr_newGlobalVariable]
  rfl

theorem emitLocDescr_invalid (M : Module) (PLoc : PresumedLoc) (h : PLoc.Filename = none) :
    emitLocDescr M PLoc = (none, M) := by
  simp [emitLocDescr, h]

theorem emitLocDescr_valid (M : Module) (PLoc : PresumedLoc) (Filename : String)
    (h : PLoc.Filename = some Filename) :
    emitLocDescr M PLoc =
      (some (M.GlobalList.length + 1),
        { M with
          GlobalList := M.GlobalList ++
            [⟨true, LinkageTypes.PrivateLinkage, true, Initializer.CString Filename⟩,
             ⟨true, LinkageTypes.PrivateLinkage, true,
               Initializer.AnonStruct
                 [Constant.GlobalAddress M.GlobalList.length,
                  Constant.ConstantInt 32 (PLoc.Line % 2 ^ 32),
                  Constant.ConstantInt 32 (PLoc.Col % 2 ^ 32)]⟩]
          LLVMCompilerUsed := M.LLVMCompilerUsed ++ [M.GlobalList.length + 1] }) := by
  simp only [emitLocDescr, h, setUnnamedAddr_newGlobalVariable, GetAddrOfConstantCString_eq]
  simp [newGlobalVariable, addCompilerUsedGlobal, ConstantInt.get]

theorem emitGlobalName_empty (M : Module) : emitGlobalName M "" = (none, M) := by
  simp [emitGlobalName, String.isEmpty_iff]

theorem emitGlobalName_nonempty (M : Module) (Name : String) (h : Name ≠ "") :
    emitGlobalName M Name =
      (some M.GlobalList.length,
        { M with
          GlobalList := M.GlobalList ++
            [⟨true, LinkageTypes.PrivateLinkage, true, Initializer.CString Name⟩]
          LLVMCompilerUsed := M.LLVMCompilerUsed ++ [M.GlobalList.length] }) := by
  have hE : Name.isEmpty = false := by
    cases hN : Name.isEmpty
    · rfl
    · exact absurd ((String.isEmpty_iff Name).1 hN) h
  simp [emitGlobalName, hE, GetAddrOfConstantCString_eq, addCompilerUsedGlobal]

theorem findNamedMetadata_addOperandIn (L : List NamedMDNode) (Name : String) (Op : MDNode)
    (T : List MDNode) (h : findNamedMetadata L Name = some T) :
    findNamedMetadata (addOperandIn L Name Op) Name = some (T ++ [Op]) := by
  induction L with
  | nil => simp [findNamedMetadata] at h
  | cons N L ih =>
    by_cases hN : N.Name = Name
    · simp [findNamedMetadata, hN] at h
      simp [addOperandIn, findNamedMetadata, hN, h]
    · simp [findNamedMetadata, hN] at h
      simp [addOperandIn, findNamedMetadata, hN, ih h]

theorem findNamedMetadata_append_new (L : List NamedMDNode) (Name : String)
    (h : findNamedMetadata L Name = none) :
    findNamedMetadata (L ++ [⟨Name, []⟩]) Name = some [] := by
  induction L with
  | nil => simp [findNamedMetadata]
  | cons N L ih =>
    by_cases hN : N.Name = Name
    · simp [findNamedMetadata, hN] at h
    · simp [findNamedMetadata, hN] at h
      simp [findNamedMetadata, hN, ih h]

/-- Appending through `getOrInsertNamedMetadata` and `addOperand` puts the node last in the
table. -/
theorem asanGlobals_addOperand (M : Module) (Op : MDNode) :
    asanGlobals (addOperand (getOrInsertNamedMetadata M "llvm.asan.globals")
      "llvm.asan.globals" Op) = asanGlobals M ++ [Op] := by
  unfold asanGlobals addOperand getOrInsertNamedMetadata
  cases h : findNamedMetadata M.NamedMDList "llvm.asan.globals" with
  | none =>
    simp [findNamedMetadata_addOperandIn _ _ Op _ (findNamedMetadata_append_new _ _ h)]
  | some T =>
    simp [findNamedMetadata_addOperandIn _ _ Op _ h]

theorem addOperand_GlobalList (M : Module) (Name : String) (Op : MDNode) :
    (addOperand (getOrInsertNamedMetadata M Name) Name Op).GlobalList = M.GlobalList := by
  unfold addOperand getOrInsertNamedMetadata
  cases findNamedMetadata M.NamedMDList Name <;> rfl

theorem addOperand_LLVMCompilerUsed (M : Module) (Name : String) (Op : MDNode) :
    (addOperand (getOrInsertNamedMetadata M Name) Name Op).LLVMCompilerUsed
      = M.LLVMCompilerUsed := by
  unfold addOperand getOrInsertNamedMetadata
  cases findNamedMetadata M.NamedMDList Name <;> rfl

theorem getElem?_append_add {α : Type} (L R : List α) (k : Nat) :
    (L ++ R)[L.length + k]? = R[k]? := by
  rw [List.getElem?_append_right (Nat.le_add_right _ _), Nat.add_sub_cancel_left]

theorem asanGlobals_congr (M M1 : Module) (h : M1.NamedMDList = M.NamedMDList) :
    asanGlobals M1 = asanGlobals M := by
  simp [asanGlobals, h]


/-- With the mode on and the global suppressed, the call only appends a record without
payload. -/
theorem reportGlobalToASan_suppressed (CGM : CodeGenModule) (M : Module) (GV : GlobalRef)
    (Loc : SourceLocation) (Name : String) (IsDynInit IsBlacklisted : Bool)
    (hA : CGM.SanitizeAddress = true) (hS : (IsBlacklisted || CGM.isIn GV "") = true) :
    reportGlobalToASan CGM M GV Loc Name IsDynInit IsBlacklisted =
      addOperand (getOrInsertNamedMetadata M "llvm.asan.globals") "llvm.asan.globals"
        ⟨GV, none, none, IsDynInit && !CGM.isIn GV "init", true⟩ := by
  simp only [reportGlobalToASan, hA, hS]
  rfl

/-- With the mode on and the global not suppressed, the call emits the location descriptor,
then the name, then appends the record. -/
theorem reportGlobalToASan_unsuppressed (CGM : CodeGenModule) (M : Module) (GV : GlobalRef)
    (Loc : SourceLocation) (Name : String) (IsDynInit IsBlacklisted : Bool)
    (hA : CGM.SanitizeAddress = true) (hS : (IsBlacklisted || CGM.isIn GV "") = false) :
    reportGlobalToASan CGM M GV Loc Name IsDynInit IsBlacklisted =
      addOperand
        (getOrInsertNamedMetadata
          (emitGlobalName (emitLocDescr M (CGM.getPresumedLoc Loc)).2 Name).2
          "llvm.asan.globals")
        "llvm.asan.globals"
        ⟨GV, (emitLocDescr M (CGM.getPresumedLoc Loc)).1,
          (emitGlobalName (emitLocDescr M (CGM.getPresumedLoc Loc)).2 Name).1,
          IsDynInit && !CGM.isIn GV "init", false⟩ := by
  simp only [reportGlobalToASan, hA, hS]
  rfl

theorem emitLocDescr_NamedMDList (M : Module) (PLoc : PresumedLoc) :
    (emitLocDescr M PLoc).2.NamedMDList = M.NamedMDList := by
  cases h : PLoc.Filename with
  | none => rw [emitLocDescr_invalid M PLoc h]
  | some Filename => rw [emitLocDescr_valid M PLoc Filename h]

theorem emitGlobalName_NamedMDList (M : Module) (Name : String) :
    (emitGlobalName M Name).2.NamedMDList = M.NamedMDList := by
  by_cases h : Name = ""
  · rw [h, emitGlobalName_empty]
  · rw [emitGlobalName_nonempty M Name h]

/-- With the mode on, the explicit form appends one record to the table, whose five fields are
the ones computed by the call. -/
theorem reportGlobalToASan_asanGlobals (CGM : CodeGenModule) (M : Module) (GV : GlobalRef)
    (Loc : SourceLocation) (Name : String) (IsDynInit IsBlacklisted : Bool)
    (hA : CGM.SanitizeAddress = true) :
    ∃ LocDescr GlobalName,
      asanGlobals (reportGlobalToASan CGM M GV Loc Name IsDynInit IsBlacklisted) =
        asanGlobals M ++ [⟨GV, LocDescr, GlobalName, IsDynInit && !CGM.isIn GV "init",
          IsBlacklisted || CGM.isIn GV ""⟩] := by
  cases hS : (IsBlacklisted || CGM.isIn GV "") with
  | true =>
    exact ⟨none, none, by
      rw [reportGlobalToASan_suppressed CGM M GV Loc Name IsDynInit IsBlacklisted hA hS,
        asanGlobals_addOperand]⟩
  | false =>
    exact ⟨_, _, by
      rw [reportGlobalToASan_unsuppressed CGM M GV Loc Name IsDynInit IsBlacklisted hA hS,
        asanGlobals_addOperand]
      rw [asanGlobals_congr M _
        ((emitGlobalName_NamedMDList _ _).trans (emitLocDescr_NamedMDList _ _))]⟩

/-- With the mode on and the global not suppressed: the record appended, the globals of the
module and the `llvm.compiler.used` list after the call, in terms of the two emission steps. -/
theorem reportGlobalToASan_unsuppressed_parts (CGM : CodeGenModule) (M : Module)
    (GV : GlobalRef) (Loc : SourceLocation) (Name : String) (IsDynInit IsBlacklisted : Bool)
    (hA : CGM.SanitizeAddress = true) (hS : (IsBlacklisted || CGM.isIn GV "") = false) :
    asanGlobals (reportGlobalToASan CGM M GV Loc Name IsDynInit IsBlacklisted) =
      asanGlobals M ++
        [⟨GV, (emitLocDescr M (CGM.getPresumedLoc Loc)).1,
          (emitGlobalName (emitLocDescr M (CGM.getPresumedLoc Loc)).2 Name).1,
          IsDynInit && !CGM.isIn GV "init", false⟩] ∧
    (reportGlobalToASan CGM M GV Loc Name IsDynInit IsBlacklisted).GlobalList =
      (emitGlobalName (emitLocDescr M (CGM.getPresumedLoc Loc)).2 Name).2.GlobalList ∧
    (reportGlobalToASan CGM M GV Loc Name IsDynInit IsBlacklisted).LLVMCompilerUsed =
      (emitGlobalName (emitLocDescr M (CGM.getPresumedLoc Loc)).2 Name).2.LLVMCompilerUsed := by
  rw [reportGlobalToASan_unsuppressed CGM M GV Loc Name IsDynInit IsBlacklisted hA hS]
  refine ⟨?_, addOperand_GlobalList _ _ _, addOperand_LLVMCompilerUsed _ _ _⟩
  rw [asanGlobals_addOperand, asanGlobals_congr M _
    ((emitGlobalName_NamedMDList _ _).trans (emitLocDescr_NamedMDList _ _))]

/-- Every call appends one record, for the global it is given, when the mode is on. -/
theorem Call.run_asanGlobals (CGM : CodeGenModule) (hA : CGM.SanitizeAddress = true)
    (M : Module) (C : Call) :
    ∃ R : MDNode, asanGlobals (Call.run CGM M C) = asanGlobals M ++ [R] ∧ R.GV = C.GV := by
  cases C with
  | report GV Loc Name IsDynInit IsBlacklisted =>
    obtain ⟨L, N, h⟩ :=
      reportGlobalToASan_asanGlobals CGM M GV Loc Name IsDynInit IsBlacklisted hA
    exact ⟨_, h, rfl⟩
  | reportDecl GV D IsDynInit =>
    obtain ⟨L, N, h⟩ :=
      reportGlobalToASan_asanGlobals CGM M GV D.getLocation D.printQualifiedName IsDynInit
        false hA
    have hE : Call.run CGM M (Call.reportDecl GV D IsDynInit) =
        reportGlobalToASan CGM M GV D.getLocation D.printQualifiedName IsDynInit false := by
      simp [Call.run, reportGlobalToASanDecl, hA]
    rw [hE]
    exact ⟨_, h, rfl⟩
  | disable GV =>
    obtain ⟨L, N, h⟩ := reportGlobalToASan_asanGlobals CGM M GV 0 "" false true hA
    have hE : Call.run CGM M (Call.disable GV) =
        reportGlobalToASan CGM M GV 0 "" false true := by
      simp [Call.run, disableSanitizerForGlobal, hA]
    rw [hE]
    exact ⟨_, h, rfl⟩

/-- After a sequence of calls with the mode on, the table lists the globals of the calls after
the ones it listed before, in call order. -/
theorem runCalls_asanGlobals (CGM : CodeGenModule) (hA : CGM.SanitizeAddress = true)
    (Cs : List Call) (M : Module) :
    (asanGlobals (runCalls CGM M Cs)).map MDNode.GV =
      (asanGlobals M).map MDNode.GV ++ Cs.map Call.GV := by
  induction Cs generalizing M with
  | nil => simp [runCalls]
  | cons C Cs ih =>
    obtain ⟨R, hR, hG⟩ := Call.run_asanGlobals CGM hA M C
    have h := ih (Call.run CGM M C)
    simp only [runCalls, List.foldl_cons] at h ⊢
    rw [h, hR]
    simp [hG]

/-- With the mode on, the table exists after a call of the explicit form. -/
theorem reportGlobalToASan_table_exists (CGM : CodeGenModule) (M : Module) (GV : GlobalRef)
    (Loc : SourceLocation) (Name : String) (IsDynInit IsBlacklisted : Bool)
    (hA : CGM.SanitizeAddress = true) :
    (findNamedMetadata
      (reportGlobalToASan CGM M GV Loc Name IsDynInit IsBlacklisted).NamedMDList
      "llvm.asan.globals").isSome = true := by
  have key : ∀ (M1 : Module) (Op : MDNode),
      (findNamedMetadata
        (addOperand (getOrInsertNamedMetadata M1 "llvm.asan.globals")
          "llvm.asan.globals" Op).NamedMDList "llvm.asan.globals").isSome = true := by
    intro M1 Op
    unfold addOperand getOrInsertNamedMetadata
    cases h : findNamedMetadata M1.NamedMDList "llvm.asan.globals" with
    | none =>
      simp [findNamedMetadata_addOperandIn _ _ Op _ (findNamedMetadata_append_new _ _ h)]
    | some T =>
      simp [findNamedMetadata_addOperandIn _ _ Op _ h]
  cases hS : (IsBlacklisted || CGM.isIn GV "") with
  | true =>
    rw [reportGlobalToASan_suppressed CGM M GV Loc Name IsDynInit IsBlacklisted hA hS]
    exact key _ _
  | false =>
    rw [reportGlobalToASan_unsuppressed CGM M GV Loc Name IsDynInit IsBlacklisted hA hS]
    exact key _ _

/-! ## The claims -/

/-- C1: when address-sanitizer mode is off, the explicit form, the declaration form and
`disableSanitizerForGlobal` each return the module as it was, for every module, global,
argument and collaborator: the `llvm.asan.globals` table, the module's globals and the
`llvm.compiler.used` list are the same. -/
theorem disabled_mode_is_inert (CGM : CodeGenModule) (M : Module) (GV : GlobalRef)
    (Loc : SourceLocation) (Name : String) (IsDynInit IsBlacklisted : Bool) (D : VarDecl)
    (hA : CGM.SanitizeAddress = false) :
    reportGlobalToASan CGM M GV Loc Name IsDynInit IsBlacklisted = M ∧
    reportGlobalToASanDecl CGM M GV D IsDynInit = M ∧
    disableSanitizerForGlobal CGM M GV = M := by
  simp [reportGlobalToASan, reportGlobalToASanDecl, disableSanitizerForGlobal, hA]

theorem disabled_mode_is_inert_witness :
    sampleCGMOff.SanitizeAddress = false ∧
    (reportGlobalToASan sampleCGMOff sampleModule 0 7 "g" true false = sampleModule ∧
     reportGlobalToASanDecl sampleCGMOff sampleModule 0 ⟨7, "ns::g"⟩ true = sampleModule ∧
     disableSanitizerForGlobal sampleCGMOff sampleModule 0 = sampleModule) :=
  ⟨rfl, disabled_mode_is_inert sampleCGMOff sampleModule 0 7 "g" true false ⟨7, "ns::g"⟩ rfl⟩

/-- C2: with address-sanitizer mode on, when the caller passes the suppression flag as true or
the blacklist holds the global in full, the explicit form appends a record whose suppressed
flag is true and whose location descriptor and name are both absent, whatever the location and
the name are; no global is created and nothing is added to `llvm.compiler.used`. -/
theorem suppressed_record_has_no_payload (CGM : CodeGenModule) (M : Module) (GV : GlobalRef)
    (Loc : SourceLocation) (Name : String) (IsDynInit IsBlacklisted : Bool)
    (hA : CGM.SanitizeAddress = true)
    (hS : IsBlacklisted = true ∨ CGM.isIn GV "" = true) :
    ∃ R : MDNode,
      asanGlobals (reportGlobalToASan CGM M GV Loc Name IsDynInit IsBlacklisted) =
        asanGlobals M ++ [R] ∧
      R.GV = GV ∧ R.IsBlacklisted = true ∧ R.LocDescr = none ∧ R.GlobalName = none ∧
      (reportGlobalToASan CGM M GV Loc Name IsDynInit IsBlacklisted).GlobalList
        = M.GlobalList ∧
      (reportGlobalToASan CGM M GV Loc Name IsDynInit IsBlacklisted).LLVMCompilerUsed
        = M.LLVMCompilerUsed := by
  have hS1 : (IsBlacklisted || CGM.isIn GV "") = true := by
    rcases hS with h | h <;> simp [h]
  rw [reportGlobalToASan_suppressed CGM M GV Loc Name IsDynInit IsBlacklisted hA hS1]
  exact ⟨_, asanGlobals_addOperand M _, rfl, rfl, rfl, rfl,
    addOperand_GlobalList M _ _, addOperand_LLVMCompilerUsed M _ _⟩

theorem suppressed_record_has_no_payload_witness :
    sampleCGMBlacklist.SanitizeAddress = true ∧
    (false = true ∨ sampleCGMBlacklist.isIn 1 "" = true) ∧
    ∃ R : MDNode,
      asanGlobals (reportGlobalToASan sampleCGMBlacklist sampleModule 1 7 "h" true false) =
        asanGlobals sampleModule ++ [R] ∧
      R.GV = 1 ∧ R.IsBlacklisted = true ∧ R.LocDescr = none ∧ R.GlobalName = none ∧
      (reportGlobalToASan sampleCGMBlacklist sampleModule 1 7 "h" true false).GlobalList
        = sampleModule.GlobalList ∧
      (reportGlobalToASan sampleCGMBlacklist sampleModule 1 7 "h" true false).LLVMCompilerUsed
        = sampleModule.LLVMCompilerUsed :=
  ⟨rfl, Or.inr rfl,
    suppressed_record_has_no_payload sampleCGMBlacklist sampleModule 1 7 "h" true false rfl
      (Or.inr rfl)⟩

/-- C3: with address-sanitizer mode on, for a global that is not suppressed (caller flag false,
not in the blacklist in full), whose location resolves to the presumed location
`(Filename, Line, Col)` and whose name is not empty, the explicit form appends a record with
both optional fields present: the location descriptor is a new private constant whose three
sub-fields are the address of a new C string holding `Filename`, and `Line` and `Col` as 32-bit
integers (exactly `Line` and `Col` when they fit 32 bits, as `unsigned` values do), and the name
is a new C string holding `Name`. -/
theorem unsuppressed_record_has_location_and_name (CGM : CodeGenModule) (M : Module)
    (GV : GlobalRef) (Loc : SourceLocation) (Name : String) (IsDynInit IsBlacklisted : Bool)
    (Filename : String) (Line Col : Nat)
    (hA : CGM.SanitizeAddress = true) (hB : IsBlacklisted = false)
    (hD : CGM.isIn GV "" = false)
    (hP : CGM.getPresumedLoc Loc = ⟨some Filename, Line, Col⟩) (hN : Name ≠ "") :
    asanGlobals (reportGlobalToASan CGM M GV Loc Name IsDynInit IsBlacklisted) =
      asanGlobals M ++
        [⟨GV, some (M.GlobalList.length + 1), some (M.GlobalList.length + 2),
          IsDynInit && !CGM.isIn GV "init", false⟩] ∧
    deref (reportGlobalToASan CGM M GV Loc Name IsDynInit IsBlacklisted)
        (M.GlobalList.length + 1) =
      some ⟨true, LinkageTypes.PrivateLinkage, true,
        Initializer.AnonStruct
          [Constant.GlobalAddress M.GlobalList.length,
           Constant.ConstantInt 32 (Line % 2 ^ 32),
           Constant.ConstantInt 32 (Col % 2 ^ 32)]⟩ ∧
    deref (reportGlobalToASan CGM M GV Loc Name IsDynInit IsBlacklisted) M.GlobalList.length =
      some ⟨true, LinkageTypes.PrivateLinkage, true, Initializer.CString Filename⟩ ∧
    deref (reportGlobalToASan CGM M GV Loc Name IsDynInit IsBlacklisted)
        (M.GlobalList.length + 2) =
      some ⟨true, LinkageTypes.PrivateLinkage, true, Initializer.CString Name⟩ ∧
    (Line < 2 ^ 32 → Col < 2 ^ 32 →
      deref (reportGlobalToASan CGM M GV Loc Name IsDynInit IsBlacklisted)
          (M.GlobalList.length + 1) =
        some ⟨true, LinkageTypes.PrivateLinkage, true,
          Initializer.AnonStruct
            [Constant.GlobalAddress M.GlobalList.length,
             Constant.ConstantInt 32 Line, Constant.ConstantInt 32 Col]⟩) := by
  have hS : (IsBlacklisted || CGM.isIn GV "") = false := by simp [hB, hD]
  have hF : (CGM.getPresumedLoc Loc).Filename = some Filename := by rw [hP]
  have hT := asanGlobals_addOperand
    (emitGlobalName (emitLocDescr M (CGM.getPresumedLoc Loc)).2 Name).2
    ⟨GV, (emitLocDescr M (CGM.getPresumedLoc Loc)).1,
      (emitGlobalName (emitLocDescr M (CGM.getPresumedLoc Loc)).2 Name).1,
      IsDynInit && !CGM.isIn GV "init", false⟩
  have hG := addOperand_GlobalList
    (emitGlobalName (emitLocDescr M (CGM.getPresumedLoc Loc)).2 Name).2 "llvm.asan.globals"
    ⟨GV, (emitLocDescr M (CGM.getPresumedLoc Loc)).1,
      (emitGlobalName (emitLocDescr M (CGM.getPresumedLoc Loc)).2 Name).1,
      IsDynInit && !CGM.isIn GV "init", false⟩
  rw [asanGlobals_congr M _
    ((emitGlobalName_NamedMDList _ _).trans (emitLocDescr_NamedMDList _ _))] at hT
  rw [← reportGlobalToASan_unsuppressed CGM M GV Loc Name IsDynInit IsBlacklisted hA hS] at hT hG
  rw [emitLocDescr_valid M _ Filename hF, emitGlobalName_nonempty _ Name hN] at hT hG
  simp only [hP] at hT hG
  have hL : deref (reportGlobalToASan CGM M GV Loc Name IsDynInit IsBlacklisted)
      (M.GlobalList.length + 1) =
      some ⟨true, LinkageTypes.PrivateLinkage, true,
        Initializer.AnonStruct
          [Constant.GlobalAddress M.GlobalList.length,
           Constant.ConstantInt 32 (Line % 2 ^ 32),
           Constant.ConstantInt 32 (Col % 2 ^ 32)]⟩ := by
    rw [deref, hG, List.append_assoc, getElem?_append_add]
    rfl
  refine ⟨?_, hL, ?_, ?_, ?_⟩
  · simpa using hT
  · have h0 := getElem?_append_add M.GlobalList
      ([⟨true, LinkageTypes.PrivateLinkage, true, Initializer.CString Filename⟩,
        ⟨true, LinkageTypes.PrivateLinkage, true,
          Initializer.AnonStruct
            [Constant.GlobalAddress M.GlobalList.length,
             Constant.ConstantInt 32 (Line % 2 ^ 32),
             Constant.ConstantInt 32 (Col % 2 ^ 32)]⟩] ++
        [⟨true, LinkageTypes.PrivateLinkage, true, Initializer.CString Name⟩]) 0
    rw [deref, hG, List.append_assoc]
    exact h0
  · rw [deref, hG, List.append_assoc, getElem?_append_add]
    rfl
  · intro h1 h2
    rw [hL, Nat.mod_eq_of_lt h1, Nat.mod_eq_of_lt h2]

theorem unsuppressed_record_has_location_and_name_witness :
    sampleCGM.SanitizeAddress = true ∧ sampleCGM.isIn 0 "" = false ∧
    sampleCGM.getPresumedLoc 7 = ⟨some "a.c", 10, 3⟩ ∧ "g" ≠ "" ∧
    asanGlobals (reportGlobalToASan sampleCGM sampleModule 0 7 "g" true false) =
      [⟨0, some 3, some 4, true, false⟩] ∧
    deref (reportGlobalToASan sampleCGM sampleModule 0 7 "g" true false) 3 =
      some ⟨true, LinkageTypes.PrivateLinkage, true,
        Initializer.AnonStruct
          [Constant.GlobalAddress 2, Constant.ConstantInt 32 10, Constant.ConstantInt 32 3]⟩ ∧
    deref (reportGlobalToASan sampleCGM sampleModule 0 7 "g" true false) 2 =
      some ⟨true, LinkageTypes.PrivateLinkage, true, Initializer.CString "a.c"⟩ ∧
    deref (reportGlobalToASan sampleCGM sampleModule 0 7 "g" true false) 4 =
      some ⟨true, LinkageTypes.PrivateLinkage, true, Initializer.CString "g"⟩ :=
  have h := unsuppressed_record_has_location_and_name sampleCGM sampleModule 0 7 "g" true false
    "a.c" 10 3 rfl rfl rfl rfl (by decide)
  ⟨rfl, rfl, rfl, by decide, h.1, h.2.2.2.2 (by decide) (by decide), h.2.2.1, h.2.2.2.1⟩

/-- C4: with address-sanitizer mode on, the dynamic-initialization flag of the record appended
by the explicit form is the caller's `IsDynInit` AND NOT the blacklist's answer for the global
in the `init` category, whatever the other arguments and the answer of the query without
category are. -/
theorem recorded_dynInit_flag (CGM : CodeGenModule) (M : Module) (GV : GlobalRef)
    (Loc : SourceLocation) (Name : String) (IsDynInit IsBlacklisted : Bool)
    (hA : CGM.SanitizeAddress = true) :
    ∃ R : MDNode,
      asanGlobals (reportGlobalToASan CGM M GV Loc Name IsDynInit IsBlacklisted) =
        asanGlobals M ++ [R] ∧
      R.IsDynInit = (IsDynInit && !CGM.isIn GV "init") := by
  obtain ⟨L, N, h⟩ := reportGlobalToASan_asanGlobals CGM M GV Loc Name IsDynInit IsBlacklisted hA
  exact ⟨_, h, rfl⟩

theorem recorded_dynInit_flag_witness :
    sampleCGMBlacklist.SanitizeAddress = true ∧
    ∃ R : MDNode,
      asanGlobals (reportGlobalToASan sampleCGMBlacklist sampleModule 0 7 "k" true false) =
        asanGlobals sampleModule ++ [R] ∧
      R.IsDynInit = (true && !sampleCGMBlacklist.isIn 0 "init") :=
  ⟨rfl, recorded_dynInit_flag sampleCGMBlacklist sampleModule 0 7 "k" true false rfl⟩

/-- C5: with address-sanitizer mode on, the suppressed flag of the record appended by the
explicit form is the caller's `IsBlacklisted` OR the blacklist's answer for the global queried
without a category; a call that differs in the location, the name, the dynamic-initialization
flag, or in a compilation that answers the same to that query (and anything to the `init`
query), records the same suppressed flag. -/
theorem recorded_suppressed_flag (CGM : CodeGenModule) (M : Module) (GV : GlobalRef)
    (Loc : SourceLocation) (Name : String) (IsDynInit IsBlacklisted : Bool)
    (hA : CGM.SanitizeAddress = true) :
    ∃ R : MDNode,
      asanGlobals (reportGlobalToASan CGM M GV Loc Name IsDynInit IsBlacklisted) =
        asanGlobals M ++ [R] ∧
      R.IsBlacklisted = (IsBlacklisted || CGM.isIn GV "") ∧
      ∀ (CGM1 : CodeGenModule) (Loc1 : SourceLocation) (Name1 : String) (IsDynInit1 : Bool),
        CGM1.SanitizeAddress = true → CGM1.isIn GV "" = CGM.isIn GV "" →
        ∃ R1 : MDNode,
          asanGlobals (reportGlobalToASan CGM1 M GV Loc1 Name1 IsDynInit1 IsBlacklisted) =
            asanGlobals M ++ [R1] ∧
          R1.IsBlacklisted = R.IsBlacklisted := by
  obtain ⟨L, N, h⟩ := reportGlobalToASan_asanGlobals CGM M GV Loc Name IsDynInit IsBlacklisted hA
  refine ⟨_, h, rfl, ?_⟩
  intro CGM1 Loc1 Name1 IsDynInit1 hA1 hI
  obtain ⟨L1, N1, h1⟩ :=
    reportGlobalToASan_asanGlobals CGM1 M GV Loc1 Name1 IsDynInit1 IsBlacklisted hA1
  exact ⟨_, h1, by simp [hI]⟩

theorem recorded_suppressed_flag_witness :
    sampleCGMBlacklist.SanitizeAddress = true ∧
    ∃ R : MDNode,
      asanGlobals (reportGlobalToASan sampleCGMBlacklist sampleModule 1 7 "h" true false) =
        asanGlobals sampleModule ++ [R] ∧
      R.IsBlacklisted = (false || sampleCGMBlacklist.isIn 1 "") ∧
      ∀ (CGM1 : CodeGenModule) (Loc1 : SourceLocation) (Name1 : String) (IsDynInit1 : Bool),
        CGM1.SanitizeAddress = true → CGM1.isIn 1 "" = sampleCGMBlacklist.isIn 1 "" →
        ∃ R1 : MDNode,
          asanGlobals (reportGlobalToASan CGM1 sampleModule 1 Loc1 Name1 IsDynInit1 false) =
            asanGlobals sampleModule ++ [R1] ∧
          R1.IsBlacklisted = R.IsBlacklisted :=
  ⟨rfl, recorded_suppressed_flag sampleCGMBlacklist sampleModule 1 7 "h" true false rfl⟩

/-- C6: with address-sanitizer mode on, every call of the explicit form turns the
`llvm.asan.globals` table `T` into `T` followed by one new record whose first field is the
global passed in: the length grows by one, the earlier records stay as they were and in their
order, the new record is last, and the table exists afterwards even if it did not before.
Hence after any sequence of calls the table lists the registered globals in call order. -/
theorem report_appends_one_record (CGM : CodeGenModule) (M : Module) (GV : GlobalRef)
    (Loc : SourceLocation) (Name : String) (IsDynInit IsBlacklisted : Bool)
    (hA : CGM.SanitizeAddress = true) :
    (∃ R : MDNode,
      asanGlobals (reportGlobalToASan CGM M GV Loc Name IsDynInit IsBlacklisted) =
        asanGlobals M ++ [R] ∧ R.GV = GV) ∧
    (asanGlobals (reportGlobalToASan CGM M GV Loc Name IsDynInit IsBlacklisted)).length =
      (asanGlobals M).length + 1 ∧
    (findNamedMetadata
      (reportGlobalToASan CGM M GV Loc Name IsDynInit IsBlacklisted).NamedMDList
      "llvm.asan.globals").isSome = true ∧
    ∀ Cs : List Call,
      (asanGlobals (runCalls CGM M Cs)).map MDNode.GV =
        (asanGlobals M).map MDNode.GV ++ Cs.map Call.GV := by
  obtain ⟨L, N, h⟩ := reportGlobalToASan_asanGlobals CGM M GV Loc Name IsDynInit IsBlacklisted hA
  refine ⟨⟨_, h, rfl⟩, ?_, ?_, ?_⟩
  · rw [h]
    simp
  · exact reportGlobalToASan_table_exists CGM M GV Loc Name IsDynInit IsBlacklisted hA
  · intro Cs
    exact runCalls_asanGlobals CGM hA Cs M

theorem report_appends_one_record_witness :
    sampleCGM.SanitizeAddress = true ∧
    (∃ R : MDNode,
      asanGlobals (reportGlobalToASan sampleCGM sampleModule 1 7 "h" false false) =
        asanGlobals sampleModule ++ [R] ∧ R.GV = 1) ∧
    (asanGlobals (reportGlobalToASan sampleCGM sampleModule 1 7 "h" false false)).length =
      (asanGlobals sampleModule).length + 1 ∧
    (findNamedMetadata
      (reportGlobalToASan sampleCGM sampleModule 1 7 "h" false false).NamedMDList
      "llvm.asan.globals").isSome = true ∧
    ∀ Cs : List Call,
      (asanGlobals (runCalls sampleCGM sampleModule Cs)).map MDNode.GV =
        (asanGlobals sampleModule).map MDNode.GV ++ Cs.map Call.GV :=
  ⟨rfl, report_appends_one_record sampleCGM sampleModule 1 7 "h" false false rfl⟩

/-- C7: with address-sanitizer mode on, for every global and every blacklist,
`disableSanitizerForGlobal(GV)` is the explicit form called with an empty location, an empty
name, `IsDynInit` false and `IsBlacklisted` true; it appends the record
`{GV, absent, absent, dynInit = false, suppressed = true}`, creates no global and leaves
`llvm.compiler.used` as it was. -/
theorem disableSanitizerForGlobal_record (CGM : CodeGenModule) (M : Module) (GV : GlobalRef)
    (hA : CGM.SanitizeAddress = true) :
    disableSanitizerForGlobal CGM M GV = reportGlobalToASan CGM M GV 0 "" false true ∧
    asanGlobals (disableSanitizerForGlobal CGM M GV) =
      asanGlobals M ++ [⟨GV, none, none, false, true⟩] ∧
    (disableSanitizerForGlobal CGM M GV).GlobalList = M.GlobalList ∧
    (disableSanitizerForGlobal CGM M GV).LLVMCompilerUsed = M.LLVMCompilerUsed := by
  have hE : disableSanitizerForGlobal CGM M GV = reportGlobalToASan CGM M GV 0 "" false true := by
    simp [disableSanitizerForGlobal, hA]
  rw [hE, reportGlobalToASan_suppressed CGM M GV 0 "" false true hA (by simp)]
  exact ⟨rfl, by rw [asanGlobals_addOperand]; simp, addOperand_GlobalList M _ _,
    addOperand_LLVMCompilerUsed M _ _⟩

theorem disableSanitizerForGlobal_record_witness :
    sampleCGMBlacklist.SanitizeAddress = true ∧
    disableSanitizerForGlobal sampleCGMBlacklist sampleModule 0 =
      reportGlobalToASan sampleCGMBlacklist sampleModule 0 0 "" false true ∧
    asanGlobals (disableSanitizerForGlobal sampleCGMBlacklist sampleModule 0) =
      [⟨0, none, none, false, true⟩] ∧
    (disableSanitizerForGlobal sampleCGMBlacklist sampleModule 0).GlobalList =
      sampleModule.GlobalList ∧
    (disableSanitizerForGlobal sampleCGMBlacklist sampleModule 0).LLVMCompilerUsed = [] :=
  ⟨rfl, disableSanitizerForGlobal_record sampleCGMBlacklist sampleModule 0 rfl⟩

/-- C8: the declaration form `reportGlobalToASan(GV, D, IsDynInit)` gives the same module as
the explicit form called with the location of `D`, the qualified name of `D`, `IsDynInit` and
`IsBlacklisted = false`, for every global, declaration, flag and collaborator (with the mode on,
and with it off as well); with the mode on, the suppressed flag it records is the blacklist's
answer alone. -/
theorem declaration_form_delegates (CGM : CodeGenModule) (M : Module) (GV : GlobalRef)
    (D : VarDecl) (IsDynInit : Bool) :
    reportGlobalToASanDecl CGM M GV D IsDynInit =
      reportGlobalToASan CGM M GV D.getLocation D.printQualifiedName IsDynInit false ∧
    (CGM.SanitizeAddress = true →
      ∃ R : MDNode,
        asanGlobals (reportGlobalToASanDecl CGM M GV D IsDynInit) = asanGlobals M ++ [R] ∧
        R.GV = GV ∧ R.IsBlacklisted = CGM.isIn GV "" ∧
        R.IsDynInit = (IsDynInit && !CGM.isIn GV "init")) := by
  have hE : reportGlobalToASanDecl CGM M GV D IsDynInit =
      reportGlobalToASan CGM M GV D.getLocation D.printQualifiedName IsDynInit false := by
    cases hA : CGM.SanitizeAddress <;> simp [reportGlobalToASanDecl, reportGlobalToASan, hA]
  refine ⟨hE, ?_⟩
  intro hA
  obtain ⟨L, N, h⟩ := reportGlobalToASan_asanGlobals CGM M GV D.getLocation
    D.printQualifiedName IsDynInit false hA
  rw [hE]
  exact ⟨_, h, rfl, by simp, rfl⟩

theorem declaration_form_delegates_witness :
    sampleCGM.SanitizeAddress = true ∧
    reportGlobalToASanDecl sampleCGM sampleModule 0 ⟨7, "ns::g"⟩ true =
      reportGlobalToASan sampleCGM sampleModule 0 7 "ns::g" true false ∧
    ∃ R : MDNode,
      asanGlobals (reportGlobalToASanDecl sampleCGM sampleModule 0 ⟨7, "ns::g"⟩ true) =
        asanGlobals sampleModule ++ [R] ∧
      R.GV = 0 ∧ R.IsBlacklisted = sampleCGM.isIn 0 "" ∧
      R.IsDynInit = (true && !sampleCGM.isIn 0 "init") :=
  have h := declaration_form_delegates sampleCGM sampleModule 0 ⟨7, "ns::g"⟩ true
  ⟨rfl, h.1, h.2 rfl⟩

/-- C9: with address-sanitizer mode on, for a global that is not suppressed and registered by
the explicit form with an empty name, the appended record has no name, and no name constant is
created or preserved: the call creates and preserves nothing when the location does not
resolve, and creates only the filename string and the location descriptor, preserving the
descriptor, when it does.  The location descriptor is present exactly when the location
resolves, and a call with any other name records the same location descriptor. -/
theorem empty_name_omits_name_only (CGM : CodeGenModule) (M : Module) (GV : GlobalRef)
    (Loc : SourceLocation) (IsDynInit IsBlacklisted : Bool)
    (hA : CGM.SanitizeAddress = true) (hB : IsBlacklisted = false)
    (hD : CGM.isIn GV "" = false) :
    ∃ R : MDNode,
      asanGlobals (reportGlobalToASan CGM M GV Loc "" IsDynInit IsBlacklisted) =
        asanGlobals M ++ [R] ∧
      R.GlobalName = none ∧
      R.LocDescr.isSome = (CGM.getPresumedLoc Loc).isValid ∧
      ((CGM.getPresumedLoc Loc).Filename = none →
        R.LocDescr = none ∧
        (reportGlobalToASan CGM M GV Loc "" IsDynInit IsBlacklisted).GlobalList
          = M.GlobalList ∧
        (reportGlobalToASan CGM M GV Loc "" IsDynInit IsBlacklisted).LLVMCompilerUsed
          = M.LLVMCompilerUsed) ∧
      (∀ Filename : String, (CGM.getPresumedLoc Loc).Filename = some Filename →
        R.LocDescr = some (M.GlobalList.length + 1) ∧
        (reportGlobalToASan CGM M GV Loc "" IsDynInit IsBlacklisted).GlobalList =
          M.GlobalList ++
            [⟨true, LinkageTypes.PrivateLinkage, true, Initializer.CString Filename⟩,
             ⟨true, LinkageTypes.PrivateLinkage, true,
               Initializer.AnonStruct
                 [Constant.GlobalAddress M.GlobalList.length,
                  Constant.ConstantInt 32 ((CGM.getPresumedLoc Loc).Line % 2 ^ 32),
                  Constant.ConstantInt 32 ((CGM.getPresumedLoc Loc).Col % 2 ^ 32)]⟩] ∧
        (reportGlobalToASan CGM M GV Loc "" IsDynInit IsBlacklisted).LLVMCompilerUsed =
          M.LLVMCompilerUsed ++ [M.GlobalList.length + 1]) ∧
      (∀ Name : String, ∃ R1 : MDNode,
        asanGlobals (reportGlobalToASan CGM M GV Loc Name IsDynInit IsBlacklisted) =
          asanGlobals M ++ [R1] ∧
        R1.LocDescr = R.LocDescr) := by
  have hS : (IsBlacklisted || CGM.isIn GV "") = false := by simp [hB, hD]
  obtain ⟨hT, hG, hU⟩ :=
    reportGlobalToASan_unsuppressed_parts CGM M GV Loc "" IsDynInit IsBlacklisted hA hS
  rw [emitGlobalName_empty] at hT hG hU
  refine ⟨_, hT, rfl, ?_, ?_, ?_, ?_⟩
  · cases hF : (CGM.getPresumedLoc Loc).Filename with
    | none => simp [emitLocDescr_invalid M _ hF, PresumedLoc.isValid, hF]
    | some Filename => simp [emitLocDescr_valid M _ Filename hF, PresumedLoc.isValid, hF]
  · intro hF
    rw [hG, hU, emitLocDescr_invalid M _ hF]
    exact ⟨rfl, rfl, rfl⟩
  · intro Filename hF
    rw [hG, hU, emitLocDescr_valid M _ Filename hF]
    exact ⟨rfl, rfl, rfl⟩
  · intro Name
    exact ⟨_, (reportGlobalToASan_unsuppressed_parts CGM M GV Loc Name IsDynInit
      IsBlacklisted hA hS).1, rfl⟩

theorem empty_name_omits_name_only_witness :
    sampleCGM.SanitizeAddress = true ∧ sampleCGM.isIn 0 "" = false ∧
    ∃ R : MDNode,
      asanGlobals (reportGlobalToASan sampleCGM sampleModule 0 7 "" true false) =
        asanGlobals sampleModule ++ [R] ∧
      R.GlobalName = none ∧
      R.LocDescr.isSome = (sampleCGM.getPresumedLoc 7).isValid ∧
      ((sampleCGM.getPresumedLoc 7).Filename = none →
        R.LocDescr = none ∧
        (reportGlobalToASan sampleCGM sampleModule 0 7 "" true false).GlobalList
          = sampleModule.GlobalList ∧
        (reportGlobalToASan sampleCGM sampleModule 0 7 "" true false).LLVMCompilerUsed
          = sampleModule.LLVMCompilerUsed) ∧
      (∀ Filename : String, (sampleCGM.getPresumedLoc 7).Filename = some Filename →
        R.LocDescr = some (sampleModule.GlobalList.length + 1) ∧
        (reportGlobalToASan sampleCGM sampleModule 0 7 "" true false).GlobalList =
          sampleModule.GlobalList ++
            [⟨true, LinkageTypes.PrivateLinkage, true, Initializer.CString Filename⟩,
             ⟨true, LinkageTypes.PrivateLinkage, true,
               Initializer.AnonStruct
                 [Constant.GlobalAddress sampleModule.GlobalList.length,
                  Constant.ConstantInt 32 ((sampleCGM.getPresumedLoc 7).Line % 2 ^ 32),
                  Constant.ConstantInt 32 ((sampleCGM.getPresumedLoc 7).Col % 2 ^ 32)]⟩] ∧
        (reportGlobalToASan sampleCGM sampleModule 0 7 "" true false).LLVMCompilerUsed =
          sampleModule.LLVMCompilerUsed ++ [sampleModule.GlobalList.length + 1]) ∧
      (∀ Name : String, ∃ R1 : MDNode,
        asanGlobals (reportGlobalToASan sampleCGM sampleModule 0 7 Name true false) =
          asanGlobals sampleModule ++ [R1] ∧
        R1.LocDescr = R.LocDescr) :=
  ⟨rfl, rfl, empty_name_omits_name_only sampleCGM sampleModule 0 7 true false rfl rfl rfl⟩

/-- C10: with address-sanitizer mode on, for a global that is not suppressed and whose location
does not resolve to a valid presumed location, the explicit form completes and appends one
record for the global; the record has no location descriptor, no location descriptor is created
or preserved (nothing is created for an empty name, only the name constant otherwise), and the
name field is present exactly when the name is not empty.  Whatever the arguments are, the call
appends one record. -/
theorem invalid_location_omits_location_only (CGM : CodeGenModule) (M : Module)
    (GV : GlobalRef) (Loc : SourceLocation) (Name : String) (IsDynInit IsBlacklisted : Bool)
    (hA : CGM.SanitizeAddress = true) (hB : IsBlacklisted = false)
    (hD : CGM.isIn GV "" = false) (hP : (CGM.getPresumedLoc Loc).isValid = false) :
    (∃ R : MDNode,
      asanGlobals (reportGlobalToASan CGM M GV Loc Name IsDynInit IsBlacklisted) =
        asanGlobals M ++ [R] ∧
      R.GV = GV ∧ R.LocDescr = none ∧
      (R.GlobalName.isSome = true ↔ Name ≠ "") ∧
      (Name = "" →
        R.GlobalName = none ∧
        (reportGlobalToASan CGM M GV Loc Name IsDynInit IsBlacklisted).GlobalList
          = M.GlobalList ∧
        (reportGlobalToASan CGM M GV Loc Name IsDynInit IsBlacklisted).LLVMCompilerUsed
          = M.LLVMCompilerUsed) ∧
      (Name ≠ "" →
        R.GlobalName = some M.GlobalList.length ∧
        (reportGlobalToASan CGM M GV Loc Name IsDynInit IsBlacklisted).GlobalList =
          M.GlobalList ++
            [⟨true, LinkageTypes.PrivateLinkage, true, Initializer.CString Name⟩] ∧
        (reportGlobalToASan CGM M GV Loc Name IsDynInit IsBlacklisted).LLVMCompilerUsed =
          M.LLVMCompilerUsed ++ [M.GlobalList.length])) ∧
    ∀ (GV1 : GlobalRef) (Loc1 : SourceLocation) (Name1 : String)
      (IsDynInit1 IsBlacklisted1 : Bool),
      (asanGlobals (reportGlobalToASan CGM M GV1 Loc1 Name1 IsDynInit1 IsBlacklisted1)).length
        = (asanGlobals M).length + 1 := by
  have hS : (IsBlacklisted || CGM.isIn GV "") = false := by simp [hB, hD]
  have hF : (CGM.getPresumedLoc Loc).Filename = none := by
    simpa [PresumedLoc.isValid] using hP
  obtain ⟨hT, hG, hU⟩ :=
    reportGlobalToASan_unsuppressed_parts CGM M GV Loc Name IsDynInit IsBlacklisted hA hS
  rw [emitLocDescr_invalid M _ hF] at hT hG hU
  refine ⟨⟨_, hT, rfl, rfl, ?_, ?_, ?_⟩, ?_⟩
  · by_cases hN : Name = ""
    · subst hN
      simp [emitGlobalName_empty]
    · simp [emitGlobalName_nonempty M Name hN, hN]
  · intro hN
    subst hN
    rw [hG, hU, emitGlobalName_empty]
    exact ⟨rfl, rfl, rfl⟩
  · intro hN
    rw [hG, hU, emitGlobalName_nonempty M Name hN]
    exact ⟨rfl, rfl, rfl⟩
  · intro GV1 Loc1 Name1 IsDynInit1 IsBlacklisted1
    obtain ⟨L, N, h⟩ :=
      reportGlobalToASan_asanGlobals CGM M GV1 Loc1 Name1 IsDynInit1 IsBlacklisted1 hA
    rw [h]
    simp

theorem invalid_location_omits_location_only_witness :
    sampleCGM.SanitizeAddress = true ∧ sampleCGM.isIn 0 "" = false ∧
    (sampleCGM.getPresumedLoc 8).isValid = false ∧
    (∃ R : MDNode,
      asanGlobals (reportGlobalToASan sampleCGM sampleModule 0 8 "g" true false) =
        asanGlobals sampleModule ++ [R] ∧
      R.GV = 0 ∧ R.LocDescr = none ∧
      (R.GlobalName.isSome = true ↔ "g" ≠ "") ∧
      ("g" = "" →
        R.GlobalName = none ∧
        (reportGlobalToASan sampleCGM sampleModule 0 8 "g" true false).GlobalList
          = sampleModule.GlobalList ∧
        (reportGlobalToASan sampleCGM sampleModule 0 8 "g" true false).LLVMCompilerUsed
          = sampleModule.LLVMCompilerUsed) ∧
      ("g" ≠ "" →
        R.GlobalName = some sampleModule.GlobalList.length ∧
        (reportGlobalToASan sampleCGM sampleModule 0 8 "g" true false).GlobalList =
          sampleModule.GlobalList ++
            [⟨true, LinkageTypes.PrivateLinkage, true, Initializer.CString "g"⟩] ∧
        (reportGlobalToASan sampleCGM sampleModule 0 8 "g" true false).LLVMCompilerUsed =
          sampleModule.LLVMCompilerUsed ++ [sampleModule.GlobalList.length])) ∧
    ∀ (GV1 : GlobalRef) (Loc1 : SourceLocation) (Name1 : String)
      (IsDynInit1 IsBlacklisted1 : Bool),
      (asanGlobals
        (reportGlobalToASan sampleCGM sampleModule GV1 Loc1 Name1 IsDynInit1
          IsBlacklisted1)).length
        = (asanGlobals sampleModule).length + 1 :=
  ⟨rfl, rfl, rfl,
    invalid_location_omits_location_only sampleCGM sampleModule 0 8 "g" true false
      rfl rfl rfl rfl⟩

/-- C11: with address-sanitizer mode on, for a global that the blacklist holds in the `init`
category only, registered by the explicit form with caller suppression false, `IsDynInit` true,
a location that resolves and a name that is not empty, the appended record is
`{k, location descriptor, name constant, dynInit = false, suppressed = false}`.  A compilation
that answers differently to the `init` query only produces the same globals, the same
`llvm.compiler.used` list and a record that differs in the dynamic-initialization flag
alone. -/
theorem init_only_exemption_clears_dynInit_only (CGM : CodeGenModule) (M : Module)
    (GV : GlobalRef) (Loc : SourceLocation) (Name : String) (Filename : String)
    (Line Col : Nat)
    (hA : CGM.SanitizeAddress = true) (hI : CGM.isIn GV "init" = true)
    (hD : CGM.isIn GV "" = false)
    (hP : CGM.getPresumedLoc Loc = ⟨some Filename, Line, Col⟩) (hN : Name ≠ "") :
    asanGlobals (reportGlobalToASan CGM M GV Loc Name true false) =
      asanGlobals M ++
        [⟨GV, some (M.GlobalList.length + 1), some (M.GlobalList.length + 2), false, false⟩] ∧
    ∀ CGM1 : CodeGenModule, CGM1.SanitizeAddress = true → CGM1.isIn GV "" = false →
      CGM1.getPresumedLoc Loc = CGM.getPresumedLoc Loc →
      asanGlobals (reportGlobalToASan CGM1 M GV Loc Name true false) =
        asanGlobals M ++
          [⟨GV, some (M.GlobalList.length + 1), some (M.GlobalList.length + 2),
            !CGM1.isIn GV "init", false⟩] ∧
      (reportGlobalToASan CGM1 M GV Loc Name true false).GlobalList =
        (reportGlobalToASan CGM M GV Loc Name true false).GlobalList ∧
      (reportGlobalToASan CGM1 M GV Loc Name true false).LLVMCompilerUsed =
        (reportGlobalToASan CGM M GV Loc Name true false).LLVMCompilerUsed := by
  have hF : (CGM.getPresumedLoc Loc).Filename = some Filename := by rw [hP]
  obtain ⟨hT, hG, hU⟩ :=
    reportGlobalToASan_unsuppressed_parts CGM M GV Loc Name true false hA (by simp [hD])
  rw [emitLocDescr_valid M _ Filename hF, emitGlobalName_nonempty _ Name hN] at hT hG hU
  refine ⟨?_, ?_⟩
  · rw [hT]
    simp [hI]
  · intro CGM1 hA1 hD1 hP1
    obtain ⟨hT1, hG1, hU1⟩ :=
      reportGlobalToASan_unsuppressed_parts CGM1 M GV Loc Name true false hA1 (by simp [hD1])
    rw [hP1, emitLocDescr_valid M _ Filename hF, emitGlobalName_nonempty _ Name hN]
      at hT1 hG1 hU1
    refine ⟨?_, hG1.trans hG.symm, hU1.trans hU.symm⟩
    rw [hT1]
    simp

theorem init_only_exemption_clears_dynInit_only_witness :
    sampleCGMBlacklist.SanitizeAddress = true ∧ sampleCGMBlacklist.isIn 0 "init" = true ∧
    sampleCGMBlacklist.isIn 0 "" = false ∧
    sampleCGMBlacklist.getPresumedLoc 7 = ⟨some "a.c", 10, 3⟩ ∧ "k" ≠ "" ∧
    asanGlobals (reportGlobalToASan sampleCGMBlacklist sampleModule 0 7 "k" true false) =
      [⟨0, some 3, some 4, false, false⟩] ∧
    asanGlobals (reportGlobalToASan sampleCGM sampleModule 0 7 "k" true false) =
      [⟨0, some 3, some 4, true, false⟩] ∧
    (reportGlobalToASan sampleCGM sampleModule 0 7 "k" true false).GlobalList =
      (reportGlobalToASan sampleCGMBlacklist sampleModule 0 7 "k" true false).GlobalList ∧
    (reportGlobalToASan sampleCGM sampleModule 0 7 "k" true false).LLVMCompilerUsed =
      (reportGlobalToASan sampleCGMBlacklist sampleModule 0 7 "k" true false).LLVMCompilerUsed :=
  have h := init_only_exemption_clears_dynInit_only sampleCGMBlacklist sampleModule 0 7 "k"
    "a.c" 10 3 rfl rfl rfl rfl (by decide)
  ⟨rfl, rfl, rfl, rfl, by decide, h.1, h.2 sampleCGM rfl rfl rfl⟩

/-- C12, as stated, fails: for global 1, held in full by the blacklist but not in the `init`
category, a caller passing `IsDynInit` true gets the record
`{1, absent, absent, dynInit = true, suppressed = true}`, not one with dynInit false. -/
theorem fully_exempt_record_dynInit_counterexample :
    sampleCGMFullOnly.SanitizeAddress = true ∧ sampleCGMFullOnly.isIn 1 "" = true ∧
    sampleCGMFullOnly.isIn 1 "init" = false ∧
    asanGlobals (reportGlobalToASan sampleCGMFullOnly sampleModule 1 7 "h" true false) =
      asanGlobals sampleModule ++ [⟨1, none, none, true, true⟩] ∧
    asanGlobals (reportGlobalToASan sampleCGMFullOnly sampleModule 1 7 "h" true false) ≠
      asanGlobals sampleModule ++ [⟨1, none, none, false, true⟩] ∧
    ¬ (∀ (CGM : CodeGenModule) (M : Module) (GV : GlobalRef) (Loc : SourceLocation)
        (Name : String) (IsDynInit IsBlacklisted : Bool),
        CGM.SanitizeAddress = true → CGM.isIn GV "" = true →
        asanGlobals (reportGlobalToASan CGM M GV Loc Name IsDynInit IsBlacklisted) =
          asanGlobals M ++ [⟨GV, none, none, false, true⟩]) := by
  refine ⟨rfl, rfl, rfl, by decide, by decide, ?_⟩
  intro h
  have h1 := h sampleCGMFullOnly sampleModule 1 7 "h" true false rfl rfl
  revert h1
  decide

/-- C12, amended: with address-sanitizer mode on, for a global that the blacklist holds in
full, the explicit form (any location, name and caller flags) appends exactly one record, equal
to `{h, absent, absent, dynInit = IsDynInit AND NOT init-exempt, suppressed = true}`; the
dynamic-initialization flag is false when the caller passes `IsDynInit` false or the blacklist
holds the global in the `init` category as well. -/
theorem fully_exempt_record (CGM : CodeGenModule) (M : Module) (GV : GlobalRef)
    (Loc : SourceLocation) (Name : String) (IsDynInit IsBlacklisted : Bool)
    (hA : CGM.SanitizeAddress = true) (hD : CGM.isIn GV "" = true) :
    asanGlobals (reportGlobalToASan CGM M GV Loc Name IsDynInit IsBlacklisted) =
      asanGlobals M ++ [⟨GV, none, none, IsDynInit && !CGM.isIn GV "init", true⟩] ∧
    (IsDynInit = false ∨ CGM.isIn GV "init" = true →
      asanGlobals (reportGlobalToASan CGM M GV Loc Name IsDynInit IsBlacklisted) =
        asanGlobals M ++ [⟨GV, none, none, false, true⟩]) := by
  have hT : asanGlobals (reportGlobalToASan CGM M GV Loc Name IsDynInit IsBlacklisted) =
      asanGlobals M ++ [⟨GV, none, none, IsDynInit && !CGM.isIn GV "init", true⟩] := by
    rw [reportGlobalToASan_suppressed CGM M GV Loc Name IsDynInit IsBlacklisted hA
      (by simp [hD]), asanGlobals_addOperand]
  refine ⟨hT, ?_⟩
  intro h
  rw [hT]
  rcases h with h | h <;> simp [h]

theorem fully_exempt_record_witness :
    sampleCGMBlacklist.SanitizeAddress = true ∧ sampleCGMBlacklist.isIn 1 "" = true ∧
    (true = false ∨ sampleCGMBlacklist.isIn 1 "init" = true) ∧
    asanGlobals (reportGlobalToASan sampleCGMBlacklist sampleModule 1 7 "h" true false) =
      [⟨1, none, none, false, true⟩] :=
  ⟨rfl, rfl, Or.inr rfl,
    (fully_exempt_record sampleCGMBlacklist sampleModule 1 7 "h" true false rfl rfl).2
      (Or.inr rfl)⟩

/-- C13: with address-sanitizer mode on, two calls of `disableSanitizerForGlobal` on the same
global turn the table `T` into `T` followed by two records, each
`{GV, absent, absent, false, true}`: the second call adds its own record after the one of the
first call, which stays as it was; no global is created and `llvm.compiler.used` is left as it
was. -/
theorem disable_twice_appends_two_records (CGM : CodeGenModule) (M : Module) (GV : GlobalRef)
    (hA : CGM.SanitizeAddress = true) :
    asanGlobals (disableSanitizerForGlobal CGM M GV) =
      asanGlobals M ++ [⟨GV, none, none, false, true⟩] ∧
    asanGlobals (disableSanitizerForGlobal CGM (disableSanitizerForGlobal CGM M GV) GV) =
      asanGlobals M ++ [⟨GV, none, none, false, true⟩, ⟨GV, none, none, false, true⟩] ∧
    (disableSanitizerForGlobal CGM (disableSanitizerForGlobal CGM M GV) GV).GlobalList =
      M.GlobalList ∧
    (disableSanitizerForGlobal CGM (disableSanitizerForGlobal CGM M GV) GV).LLVMCompilerUsed =
      M.LLVMCompilerUsed := by
  have hE : ∀ M1 : Module, disableSanitizerForGlobal CGM M1 GV =
      addOperand (getOrInsertNamedMetadata M1 "llvm.asan.globals") "llvm.asan.globals"
        ⟨GV, none, none, false, true⟩ := by
    intro M1
    have h1 : disableSanitizerForGlobal CGM M1 GV =
        reportGlobalToASan CGM M1 GV 0 "" false true := by
      simp [disableSanitizerForGlobal, hA]
    rw [h1, reportGlobalToASan_suppressed CGM M1 GV 0 "" false true hA (by simp)]
    simp
  have h1 : asanGlobals (disableSanitizerForGlobal CGM M GV) =
      asanGlobals M ++ [⟨GV, none, none, false, true⟩] := by
    rw [hE M, asanGlobals_addOperand]
  refine ⟨h1, ?_, ?_, ?_⟩
  · rw [hE (disableSanitizerForGlobal CGM M GV), asanGlobals_addOperand, h1]
    simp
  · rw [hE (disableSanitizerForGlobal CGM M GV), addOperand_GlobalList, hE M,
      addOperand_GlobalList]
  · rw [hE (disableSanitizerForGlobal CGM M GV), addOperand_LLVMCompilerUsed, hE M,
      addOperand_LLVMCompilerUsed]

theorem disable_twice_appends_two_records_witness :
    sampleCGM.SanitizeAddress = true ∧
    asanGlobals (disableSanitizerForGlobal sampleCGM sampleModule 0) =
      [⟨0, none, none, false, true⟩] ∧
    asanGlobals
        (disableSanitizerForGlobal sampleCGM (disableSanitizerForGlobal sampleCGM sampleModule 0)
          0) =
      [⟨0, none, none, false, true⟩, ⟨0, none, none, false, true⟩] ∧
    (disableSanitizerForGlobal sampleCGM (disableSanitizerForGlobal sampleCGM sampleModule 0)
      0).GlobalList = sampleModule.GlobalList ∧
    (disableSanitizerForGlobal sampleCGM (disableSanitizerForGlobal sampleCGM sampleModule 0)
      0).LLVMCompilerUsed = [] :=
  ⟨rfl, disable_twice_appends_two_records sampleCGM sampleModule 0 rfl⟩

theorem eq_of_le_of_lt_add_one (n P : Nat) (h1 : n ≤ P) (h2 : P < n + 1) : P = n := by
  omega

theorem eq_or_of_le_of_lt_add_two (n P : Nat) (h1 : n ≤ P) (h2 : P < n + 2) :
    P = n ∨ P = n + 1 := by
  omega

theorem eq_or_of_le_of_lt_add_three (n P : Nat) (h1 : n ≤ P) (h2 : P < n + 3) :
    P = n ∨ P = n + 1 ∨ P = n + 2 := by
  omega

/-! ## The effect of the two emission steps -/

/-- The two emission steps, run one after the other on a module with `n` globals, leave the
named metadata alone, add the pointers they return to `llvm.compiler.used` (the location
descriptor first), and create, in this order: the filename string and the location descriptor
(at `n` and `n + 1`) when the location is valid, then the name string when the name is not
empty. -/
theorem emit_shape (M : Module) (PLoc : PresumedLoc) (Name : String) :
    (emitGlobalName (emitLocDescr M PLoc).2 Name).2.LLVMCompilerUsed =
      M.LLVMCompilerUsed ++
        ((emitLocDescr M PLoc).1.toList ++
          (emitGlobalName (emitLocDescr M PLoc).2 Name).1.toList) ∧
    ∃ Created : List GlobalVariable,
      (emitGlobalName (emitLocDescr M PLoc).2 Name).2.GlobalList = M.GlobalList ++ Created ∧
      (((emitLocDescr M PLoc).1 = none ∧
          (emitGlobalName (emitLocDescr M PLoc).2 Name).1 = none ∧ Created = []) ∨
       ((emitLocDescr M PLoc).1 = none ∧
          (emitGlobalName (emitLocDescr M PLoc).2 Name).1 = some M.GlobalList.length ∧
          Created = [⟨true, LinkageTypes.PrivateLinkage, true, Initializer.CString Name⟩]) ∨
       ((emitLocDescr M PLoc).1 = some (M.GlobalList.length + 1) ∧
          (emitGlobalName (emitLocDescr M PLoc).2 Name).1 = none ∧
          ∃ Filename : String, PLoc.Filename = some Filename ∧
            Created =
              [⟨true, LinkageTypes.PrivateLinkage, true, Initializer.CString Filename⟩,
               ⟨true, LinkageTypes.PrivateLinkage, true,
                 Initializer.AnonStruct
                   [Constant.GlobalAddress M.GlobalList.length,
                    Constant.ConstantInt 32 (PLoc.Line % 2 ^ 32),
                    Constant.ConstantInt 32 (PLoc.Col % 2 ^ 32)]⟩]) ∨
       ((emitLocDescr M PLoc).1 = some (M.GlobalList.length + 1) ∧
          (emitGlobalName (emitLocDescr M PLoc).2 Name).1 = some (M.GlobalList.length + 2) ∧
          ∃ Filename : String, PLoc.Filename = some Filename ∧
            Created =
              [⟨true, LinkageTypes.PrivateLinkage, true, Initializer.CString Filename⟩,
               ⟨true, LinkageTypes.PrivateLinkage, true,
                 Initializer.AnonStruct
                   [Constant.GlobalAddress M.GlobalList.length,
                    Constant.ConstantInt 32 (PLoc.Line % 2 ^ 32),
                    Constant.ConstantInt 32 (PLoc.Col % 2 ^ 32)]⟩,
               ⟨true, LinkageTypes.PrivateLinkage, true, Initializer.CString Name⟩])) := by
  cases hF : PLoc.Filename with
  | none =>
    rw [emitLocDescr_invalid M PLoc hF]
    by_cases hN : Name = ""
    · subst hN
      rw [emitGlobalName_empty]
      exact ⟨by simp, [], by simp, Or.inl ⟨rfl, rfl, rfl⟩⟩
    · rw [emitGlobalName_nonempty M Name hN]
      exact ⟨by simp, _, rfl, Or.inr (Or.inl ⟨rfl, rfl, rfl⟩)⟩
  | some Filename =>
    rw [emitLocDescr_valid M PLoc Filename hF]
    by_cases hN : Name = ""
    · subst hN
      rw [emitGlobalName_empty]
      exact ⟨by simp, _, rfl, Or.inr (Or.inr (Or.inl ⟨rfl, rfl, Filename, rfl, rfl⟩))⟩
    · rw [emitGlobalName_nonempty _ Name hN]
      refine ⟨by simp, _, ?_, Or.inr (Or.inr (Or.inr ⟨rfl, ?_, Filename, rfl, rfl⟩))⟩
      · simp
      · simp

/-- Each of the three operations is, in every mode, a call of the explicit form. -/
theorem Call.run_eq_report (CGM : CodeGenModule) (M : Module) (C : Call) :
    ∃ (Loc : SourceLocation) (Name : String) (IsDynInit IsBlacklisted : Bool),
      Call.run CGM M C = reportGlobalToASan CGM M C.GV Loc Name IsDynInit IsBlacklisted := by
  cases C with
  | report GV Loc Name IsDynInit IsBlacklisted =>
    exact ⟨Loc, Name, IsDynInit, IsBlacklisted, rfl⟩
  | reportDecl GV D IsDynInit =>
    refine ⟨D.getLocation, D.printQualifiedName, IsDynInit, false, ?_⟩
    cases hA : CGM.SanitizeAddress <;>
      simp [Call.run, Call.GV, reportGlobalToASanDecl, reportGlobalToASan, hA]
  | disable GV =>
    refine ⟨0, "", false, true, ?_⟩
    cases hA : CGM.SanitizeAddress <;>
      simp [Call.run, Call.GV, disableSanitizerForGlobal, reportGlobalToASan, hA]

/-- With the mode on, the explicit form appends its record to a module in which the record's
location descriptor and name constant are already in `llvm.compiler.used`, and which has the
table of the module before the call. -/
theorem reportGlobalToASan_marks_before_append (CGM : CodeGenModule) (M : Module)
    (GV : GlobalRef) (Loc : SourceLocation) (Name : String) (IsDynInit IsBlacklisted : Bool)
    (hA : CGM.SanitizeAddress = true) :
    ∃ (M1 : Module) (R : MDNode),
      reportGlobalToASan CGM M GV Loc Name IsDynInit IsBlacklisted =
        addOperand (getOrInsertNamedMetadata M1 "llvm.asan.globals") "llvm.asan.globals" R ∧
      asanGlobals M1 = asanGlobals M ∧
      (∃ Marked : List GlobalRef, M1.LLVMCompilerUsed = M.LLVMCompilerUsed ++ Marked) ∧
      (∀ P : GlobalRef, R.LocDescr = some P → P ∈ M1.LLVMCompilerUsed) ∧
      (∀ P : GlobalRef, R.GlobalName = some P → P ∈ M1.LLVMCompilerUsed) := by
  cases hS : (IsBlacklisted || CGM.isIn GV "") with
  | true =>
    refine ⟨M, _, reportGlobalToASan_suppressed CGM M GV Loc Name IsDynInit IsBlacklisted hA hS,
      rfl, ⟨[], by simp⟩, ?_, ?_⟩ <;> intro P hP <;> simp at hP
  | false =>
    obtain ⟨hU, -⟩ := emit_shape M (CGM.getPresumedLoc Loc) Name
    refine ⟨_, _,
      reportGlobalToASan_unsuppressed CGM M GV Loc Name IsDynInit IsBlacklisted hA hS,
      asanGlobals_congr M _
        ((emitGlobalName_NamedMDList _ _).trans (emitLocDescr_NamedMDList _ _)),
      ⟨_, hU⟩, ?_, ?_⟩
    · intro P hP
      rw [hU]
      simp only at hP
      simp [hP]
    · intro P hP
      rw [hU]
      simp only at hP
      simp [hP]

/-- Every operation keeps the preservation property, in every mode. -/
theorem Call.run_Preserved (CGM : CodeGenModule) (M : Module) (C : Call) (h : Preserved M) :
    Preserved (Call.run CGM M C) := by
  obtain ⟨Loc, Name, IsDynInit, IsBlacklisted, hE⟩ := Call.run_eq_report CGM M C
  rw [hE]
  cases hA : CGM.SanitizeAddress with
  | false =>
    have hM : reportGlobalToASan CGM M C.GV Loc Name IsDynInit IsBlacklisted = M := by
      simp [reportGlobalToASan, hA]
    rw [hM]
    exact h
  | true =>
    obtain ⟨M1, R, hR, hT, ⟨Marked, hU⟩, hL, hN⟩ :=
      reportGlobalToASan_marks_before_append CGM M C.GV Loc Name IsDynInit IsBlacklisted hA
    rw [hR]
    intro R1 hR1
    rw [asanGlobals_addOperand, hT] at hR1
    rw [addOperand_LLVMCompilerUsed]
    rcases List.mem_append.1 hR1 with hOld | hNew
    · obtain ⟨h1, h2⟩ := h R1 hOld
      rw [hU]
      exact ⟨fun P hP => List.mem_append_left _ (h1 P hP),
        fun P hP => List.mem_append_left _ (h2 P hP)⟩
    · have hEq : R1 = R := by simpa using hNew
      rw [hEq]
      exact ⟨hL, hN⟩

/-- A sequence of operations keeps the preservation property. -/
theorem runCalls_Preserved (CGM : CodeGenModule) (Cs : List Call) (M : Module)
    (h : Preserved M) : Preserved (runCalls CGM M Cs) := by
  induction Cs generalizing M with
  | nil => exact h
  | cons C Cs ih => exact ih (Call.run CGM M C) (Call.run_Preserved CGM M C h)

/-- With the mode on and the global not suppressed: the record, the created globals and the
additions to `llvm.compiler.used`, in the four cases of a valid or invalid location and an empty
or non-empty name. -/
theorem reportGlobalToASan_unsuppressed_shape (CGM : CodeGenModule) (M : Module)
    (GV : GlobalRef) (Loc : SourceLocation) (Name : String) (IsDynInit IsBlacklisted : Bool)
    (hA : CGM.SanitizeAddress = true) (hS : (IsBlacklisted || CGM.isIn GV "") = false) :
    ∃ (LocDescr GlobalName : Option GlobalRef) (Created : List GlobalVariable),
      asanGlobals (reportGlobalToASan CGM M GV Loc Name IsDynInit IsBlacklisted) =
        asanGlobals M ++
          [⟨GV, LocDescr, GlobalName, IsDynInit && !CGM.isIn GV "init", false⟩] ∧
      (reportGlobalToASan CGM M GV Loc Name IsDynInit IsBlacklisted).GlobalList =
        M.GlobalList ++ Created ∧
      (reportGlobalToASan CGM M GV Loc Name IsDynInit IsBlacklisted).LLVMCompilerUsed =
        M.LLVMCompilerUsed ++ (LocDescr.toList ++ GlobalName.toList) ∧
      ((LocDescr = none ∧ GlobalName = none ∧ Created = []) ∨
       (LocDescr = none ∧ GlobalName = some M.GlobalList.length ∧
          Created = [⟨true, LinkageTypes.PrivateLinkage, true, Initializer.CString Name⟩]) ∨
       (LocDescr = some (M.GlobalList.length + 1) ∧ GlobalName = none ∧
          ∃ Filename : String, (CGM.getPresumedLoc Loc).Filename = some Filename ∧
            Created =
              [⟨true, LinkageTypes.PrivateLinkage, true, Initializer.CString Filename⟩,
               ⟨true, LinkageTypes.PrivateLinkage, true,
                 Initializer.AnonStruct
                   [Constant.GlobalAddress M.GlobalList.length,
                    Constant.ConstantInt 32 ((CGM.getPresumedLoc Loc).Line % 2 ^ 32),
                    Constant.ConstantInt 32 ((CGM.getPresumedLoc Loc).Col % 2 ^ 32)]⟩]) ∨
       (LocDescr = some (M.GlobalList.length + 1) ∧
          GlobalName = some (M.GlobalList.length + 2) ∧
          ∃ Filename : String, (CGM.getPresumedLoc Loc).Filename = some Filename ∧
            Created =
              [⟨true, LinkageTypes.PrivateLinkage, true, Initializer.CString Filename⟩,
               ⟨true, LinkageTypes.PrivateLinkage, true,
                 Initializer.AnonStruct
                   [Constant.GlobalAddress M.GlobalList.length,
                    Constant.ConstantInt 32 ((CGM.getPresumedLoc Loc).Line % 2 ^ 32),
                    Constant.ConstantInt 32 ((CGM.getPresumedLoc Loc).Col % 2 ^ 32)]⟩,
               ⟨true, LinkageTypes.PrivateLinkage, true, Initializer.CString Name⟩])) := by
  obtain ⟨hT, hG, hU⟩ :=
    reportGlobalToASan_unsuppressed_parts CGM M GV Loc Name IsDynInit IsBlacklisted hA hS
  obtain ⟨hU2, Created, hG2, hShape⟩ := emit_shape M (CGM.getPresumedLoc Loc) Name
  exact ⟨_, _, Created, hT, hG.trans hG2, hU.trans hU2, hShape⟩

/-! ## Facts about traces -/

theorem replay_append (M : Module) (L1 L2 : List Event) :
    replay M (L1 ++ L2) = replay (replay M L1) L2 := by
  simp [replay, List.foldl_append]

/-- A step keeps the log in line with the module. -/
theorem exec_replay (M0 : Module) (T : Traced) (E : Event) (h : replay M0 T.Log = T.M) :
    replay M0 (T.exec E).Log = (T.exec E).M := by
  simp only [Traced.exec, replay, List.foldl_append, List.foldl_cons, List.foldl_nil]
  rw [show List.foldl Event.apply M0 T.Log = T.M from h]

theorem emitLocDescrT_fst (T : Traced) (PLoc : PresumedLoc) :
    (emitLocDescrT T PLoc).1 = (emitLocDescr T.M PLoc).1 := by
  cases hF : PLoc.Filename with
  | none => simp only [emitLocDescrT, emitLocDescr, hF]
  | some Filename =>
    simp only [emitLocDescrT, emitLocDescr, hF]
    rfl

theorem emitLocDescrT_M (T : Traced) (PLoc : PresumedLoc) :
    (emitLocDescrT T PLoc).2.M = (emitLocDescr T.M PLoc).2 := by
  cases hF : PLoc.Filename with
  | none => simp only [emitLocDescrT, emitLocDescr, hF]
  | some Filename =>
    simp only [emitLocDescrT, emitLocDescr, hF]
    rfl

theorem emitLocDescrT_replay (M0 : Module) (T : Traced) (PLoc : PresumedLoc)
    (h : replay M0 T.Log = T.M) :
    replay M0 (emitLocDescrT T PLoc).2.Log = (emitLocDescrT T PLoc).2.M := by
  cases hF : PLoc.Filename with
  | none =>
    simp only [emitLocDescrT, hF]
    exact h
  | some Filename =>
    simp only [emitLocDescrT, hF, GetAddrOfConstantCStringT, newGlobalVariableT]
    exact exec_replay _ _ _ (exec_replay _ _ _ (exec_replay _ _ _ (exec_replay _ _ _
      (exec_replay _ _ _ h))))

/-- The steps of the recorded location block build or mark globals only, and the descriptor it
returns is marked by one of them. -/
theorem emitLocDescrT_Log (T : Traced) (PLoc : PresumedLoc) :
    ∃ Pre : List Event,
      (emitLocDescrT T PLoc).2.Log = T.Log ++ Pre ∧
      (∀ E ∈ Pre, E.Op = none) ∧
      (∀ P : GlobalRef, (emitLocDescrT T PLoc).1 = some P →
        Event.AddCompilerUsedGlobal P ∈ Pre) := by
  cases hF : PLoc.Filename with
  | none =>
    refine ⟨[], by simp [emitLocDescrT, hF], by simp, ?_⟩
    intro P hP
    simp [emitLocDescrT, hF] at hP
  | some Filename =>
    simp only [emitLocDescrT, hF, GetAddrOfConstantCStringT, newGlobalVariableT, Traced.exec,
      List.append_assoc, List.singleton_append, List.cons_append, List.nil_append]
    refine ⟨_, rfl, ?_, ?_⟩
    · intro E hE
      simp only [List.mem_cons, List.mem_singleton] at hE
      rcases hE with h | h | h | h | h | h
      · rw [h]; rfl
      · rw [h]; rfl
      · rw [h]; rfl
      · rw [h]; rfl
      · rw [h]; rfl
      · simp at h
    · intro P hP
      have hP1 := Option.some.inj hP
      rw [← hP1]
      simp

theorem emitGlobalNameT_fst (T : Traced) (Name : String) :
    (emitGlobalNameT T Name).1 = (emitGlobalName T.M Name).1 := by
  cases hN : Name.isEmpty with
  | true => simp [emitGlobalNameT, emitGlobalName, hN]
  | false =>
    simp only [emitGlobalNameT, emitGlobalName, hN]
    rfl

theorem emitGlobalNameT_M (T : Traced) (Name : String) :
    (emitGlobalNameT T Name).2.M = (emitGlobalName T.M Name).2 := by
  cases hN : Name.isEmpty with
  | true => simp [emitGlobalNameT, emitGlobalName, hN]
  | false =>
    simp only [emitGlobalNameT, emitGlobalName, hN]
    rfl

theorem emitGlobalNameT_replay (M0 : Module) (T : Traced) (Name : String)
    (h : replay M0 T.Log = T.M) :
    replay M0 (emitGlobalNameT T Name).2.Log = (emitGlobalNameT T Name).2.M := by
  cases hN : Name.isEmpty with
  | true =>
    simp only [emitGlobalNameT, hN]
    exact h
  | false =>
    simp only [emitGlobalNameT, hN, GetAddrOfConstantCStringT, newGlobalVariableT]
    exact exec_replay _ _ _ (exec_replay _ _ _ (exec_replay _ _ _ h))

/-- The steps of the recorded name block build or mark globals only, and the name constant it
returns is marked by one of them. -/
theorem emitGlobalNameT_Log (T : Traced) (Name : String) :
    ∃ Pre : List Event,
      (emitGlobalNameT T Name).2.Log = T.Log ++ Pre ∧
      (∀ E ∈ Pre, E.Op = none) ∧
      (∀ P : GlobalRef, (emitGlobalNameT T Name).1 = some P →
        Event.AddCompilerUsedGlobal P ∈ Pre) := by
  cases hN : Name.isEmpty with
  | true =>
    refine ⟨[], by simp [emitGlobalNameT, hN], by simp, ?_⟩
    intro P hP
    simp [emitGlobalNameT, hN] at hP
  | false =>
    simp only [emitGlobalNameT, hN, GetAddrOfConstantCStringT, newGlobalVariableT, Traced.exec,
      List.append_assoc, List.singleton_append, List.cons_append, List.nil_append]
    refine ⟨_, rfl, ?_, ?_⟩
    · intro E hE
      simp only [List.mem_cons, List.mem_singleton] at hE
      rcases hE with h | h | h | h
      · rw [h]; rfl
      · rw [h]; rfl
      · rw [h]; rfl
      · simp at h
    · intro P hP
      have hP1 := Option.some.inj hP
      rw [← hP1]
      simp

/-- The recorded explicit form ends in the module of the plain one. -/
theorem reportGlobalToASanT_M (CGM : CodeGenModule) (T : Traced) (GV : GlobalRef)
    (Loc : SourceLocation) (Name : String) (IsDynInit IsBlacklisted : Bool) :
    (reportGlobalToASanT CGM T GV Loc Name IsDynInit IsBlacklisted).M =
      reportGlobalToASan CGM T.M GV Loc Name IsDynInit IsBlacklisted := by
  cases hA : CGM.SanitizeAddress with
  | false => simp [reportGlobalToASanT, reportGlobalToASan, hA]
  | true =>
    cases hS : (IsBlacklisted || CGM.isIn GV "") with
    | true =>
      simp only [reportGlobalToASanT, reportGlobalToASan, hA, hS]
      rfl
    | false =>
      simp only [reportGlobalToASanT, reportGlobalToASan, hA, hS]
      simp only [Traced.exec, Event.apply, Bool.not_true, Bool.not_false, if_true,
        Bool.false_eq_true, if_false, emitGlobalNameT_fst, emitGlobalNameT_M,
        emitLocDescrT_fst, emitLocDescrT_M]

/-- The log of the recorded explicit form replays to its module. -/
theorem reportGlobalToASanT_replay (CGM : CodeGenModule) (M0 : Module) (T : Traced)
    (GV : GlobalRef) (Loc : SourceLocation) (Name : String) (IsDynInit IsBlacklisted : Bool)
    (h : replay M0 T.Log = T.M) :
    replay M0 (reportGlobalToASanT CGM T GV Loc Name IsDynInit IsBlacklisted).Log =
      (reportGlobalToASanT CGM T GV Loc Name IsDynInit IsBlacklisted).M := by
  cases hA : CGM.SanitizeAddress with
  | false =>
    simp only [reportGlobalToASanT, hA]
    exact h
  | true =>
    cases hS : (IsBlacklisted || CGM.isIn GV "") with
    | true =>
      simp only [reportGlobalToASanT, hA, hS]
      exact exec_replay _ _ _ (exec_replay _ _ _ (exec_replay _ _ _ h))
    | false =>
      simp only [reportGlobalToASanT, hA, hS]
      exact exec_replay _ _ _ (exec_replay _ _ _ (exec_replay _ _ _
        (emitGlobalNameT_replay M0 _ Name (emitLocDescrT_replay M0 T _ h))))

/-- With the mode on, the log of the recorded explicit form is: steps that build or mark
globals only, then the building of the record, the fetching of the table and the appending of
the record.  The optional fields of the record are marked by steps of the first part, and the
record is the one the plain form appends to the table. -/
theorem reportGlobalToASanT_Log (CGM : CodeGenModule) (T : Traced) (GV : GlobalRef)
    (Loc : SourceLocation) (Name : String) (IsDynInit IsBlacklisted : Bool)
    (hA : CGM.SanitizeAddress = true) :
    ∃ (Pre : List Event) (R : MDNode),
      (reportGlobalToASanT CGM T GV Loc Name IsDynInit IsBlacklisted).Log =
        T.Log ++ (Pre ++
          [Event.MDNodeGet R, Event.GetOrInsertNamedMetadata "llvm.asan.globals",
           Event.AddOperand "llvm.asan.globals" R]) ∧
      (∀ E ∈ Pre, E.Op = none) ∧
      (∀ P : GlobalRef, R.LocDescr = some P → Event.AddCompilerUsedGlobal P ∈ Pre) ∧
      (∀ P : GlobalRef, R.GlobalName = some P → Event.AddCompilerUsedGlobal P ∈ Pre) ∧
      asanGlobals (reportGlobalToASan CGM T.M GV Loc Name IsDynInit IsBlacklisted) =
        asanGlobals T.M ++ [R] := by
  cases hS : (IsBlacklisted || CGM.isIn GV "") with
  | true =>
    refine ⟨[], ⟨GV, none, none, IsDynInit && !CGM.isIn GV "init", true⟩, ?_, by simp, ?_, ?_,
      ?_⟩
    · simp only [reportGlobalToASanT, hA, hS, Traced.exec]
      simp
    · intro P hP
      simp at hP
    · intro P hP
      simp at hP
    · rw [reportGlobalToASan_suppressed CGM T.M GV Loc Name IsDynInit IsBlacklisted hA hS,
        asanGlobals_addOperand]
  | false =>
    obtain ⟨PreL, hL1, hL2, hL3⟩ := emitLocDescrT_Log T (CGM.getPresumedLoc Loc)
    obtain ⟨PreN, hN1, hN2, hN3⟩ :=
      emitGlobalNameT_Log (emitLocDescrT T (CGM.getPresumedLoc Loc)).2 Name
    refine ⟨PreL ++ PreN,
      ⟨GV, (emitLocDescrT T (CGM.getPresumedLoc Loc)).1,
        (emitGlobalNameT (emitLocDescrT T (CGM.getPresumedLoc Loc)).2 Name).1,
        IsDynInit && !CGM.isIn GV "init", false⟩, ?_, ?_, ?_, ?_, ?_⟩
    · simp only [reportGlobalToASanT, hA, hS, Traced.exec]
      simp [hN1, hL1]
    · intro E hE
      rcases List.mem_append.1 hE with h | h
      · exact hL2 E h
      · exact hN2 E h
    · intro P hP
      exact List.mem_append_left _ (hL3 P hP)
    · intro P hP
      exact List.mem_append_right _ (hN3 P hP)
    · rw [(reportGlobalToASan_unsuppressed_parts CGM T.M GV Loc Name IsDynInit IsBlacklisted
        hA hS).1, emitGlobalNameT_fst, emitLocDescrT_M, emitLocDescrT_fst]

/-- Each recorded operation is, in every mode, the recorded explicit form, with the arguments
that make the plain operation the plain explicit form. -/
theorem Call.runT_eq_report (CGM : CodeGenModule) (T : Traced) (C : Call) :
    ∃ (Loc : SourceLocation) (Name : String) (IsDynInit IsBlacklisted : Bool),
      Call.runT CGM T C = reportGlobalToASanT CGM T C.GV Loc Name IsDynInit IsBlacklisted ∧
      Call.run CGM T.M C = reportGlobalToASan CGM T.M C.GV Loc Name IsDynInit IsBlacklisted := by
  cases C with
  | report GV Loc Name IsDynInit IsBlacklisted =>
    exact ⟨Loc, Name, IsDynInit, IsBlacklisted, rfl, rfl⟩
  | reportDecl GV D IsDynInit =>
    refine ⟨D.getLocation, D.printQualifiedName, IsDynInit, false, ?_, ?_⟩
    · cases hA : CGM.SanitizeAddress <;>
        simp [Call.runT, Call.GV, reportGlobalToASanDeclT, reportGlobalToASanT, hA]
    · cases hA : CGM.SanitizeAddress <;>
        simp [Call.run, Call.GV, reportGlobalToASanDecl, reportGlobalToASan, hA]
  | disable GV =>
    refine ⟨0, "", false, true, ?_, ?_⟩
    · cases hA : CGM.SanitizeAddress <;>
        simp [Call.runT, Call.GV, disableSanitizerForGlobalT, reportGlobalToASanT, hA]
    · cases hA : CGM.SanitizeAddress <;>
        simp [Call.run, Call.GV, disableSanitizerForGlobal, reportGlobalToASan, hA]

theorem findNamedMetadata_append_empty (L : List NamedMDNode) (Name Key : String) :
    (findNamedMetadata (L ++ [⟨Name, []⟩]) Key).getD [] = (findNamedMetadata L Key).getD [] := by
  induction L with
  | nil =>
    by_cases h : Name = Key <;> simp [findNamedMetadata, h]
  | cons N L ih =>
    by_cases hN : N.Name = Key
    · simp [findNamedMetadata, hN]
    · simpa [findNamedMetadata, hN] using ih

/-- A step other than the appending of a record keeps the preservation property. -/
theorem Event.apply_Preserved (M : Module) (E : Event)
    (hE : ∀ (Name : String) (Op : MDNode), E ≠ Event.AddOperand Name Op) (h : Preserved M) :
    Preserved (E.apply M) := by
  cases E with
  | NewGlobalVariable isConstant Linkage Init => exact h
  | SetUnnamedAddr GV V =>
    simp only [Event.apply, setUnnamedAddr]
    split
    · exact h
    · exact h
  | AddCompilerUsedGlobal GV =>
    intro R hR
    obtain ⟨h1, h2⟩ := h R hR
    exact ⟨fun P hP => List.mem_append_left _ (h1 P hP),
      fun P hP => List.mem_append_left _ (h2 P hP)⟩
  | MDNodeGet Op => exact h
  | GetOrInsertNamedMetadata Name =>
    simp only [Event.apply, getOrInsertNamedMetadata]
    split
    · exact h
    · intro R hR
      have hEq : asanGlobals
          { M with NamedMDList := M.NamedMDList ++ [⟨Name, []⟩] } = asanGlobals M :=
        findNamedMetadata_append_empty M.NamedMDList Name "llvm.asan.globals"
      rw [hEq] at hR
      exact h R hR
  | AddOperand Name Op => exact absurd rfl (hE Name Op)

/-- Steps other than the appending of a record keep the preservation property. -/
theorem replay_Preserved (L : List Event)
    (hL : ∀ E ∈ L, ∀ (Name : String) (Op : MDNode), E ≠ Event.AddOperand Name Op)
    (M : Module) (h : Preserved M) : Preserved (replay M L) := by
  induction L generalizing M with
  | nil => exact h
  | cons E L ih =>
    exact ih (fun E1 h1 => hL E1 (List.mem_cons_of_mem _ h1)) (E.apply M)
      (Event.apply_Preserved M E (hL E (List.mem_cons_self _ _)) h)

/-- In a log made of steps that refer to no record, followed by the building, the fetching of
the table and the appending, a step that refers to a record refers to that record and comes
after the first part. -/
theorem record_step_after_prefix (Pre : List Event) (R0 : MDNode) (Name : String)
    (hPre : ∀ E ∈ Pre, E.Op = none) (i : Nat) (E : Event) (R : MDNode)
    (hi : (Pre ++ [Event.MDNodeGet R0, Event.GetOrInsertNamedMetadata Name,
      Event.AddOperand Name R0])[i]? = some E)
    (hR : E.Op = some R) : R = R0 ∧ Pre.length ≤ i := by
  by_cases h : i < Pre.length
  · rw [List.getElem?_append_left h] at hi
    have hMem : E ∈ Pre := List.mem_iff_getElem?.2 ⟨i, hi⟩
    rw [hPre E hMem] at hR
    simp at hR
  · have hLe : Pre.length ≤ i := Nat.le_of_not_lt h
    refine ⟨?_, hLe⟩
    rw [List.getElem?_append_right hLe] at hi
    match hm : i - Pre.length, hi with
    | 0, hi =>
      simp at hi
      rw [← hi] at hR
      exact (Option.some.inj hR).symm
    | 1, hi =>
      simp at hi
      rw [← hi] at hR
      simp [Event.Op] at hR
    | 2, hi =>
      simp at hi
      rw [← hi] at hR
      exact (Option.some.inj hR).symm
    | m + 3, hi => simp at hi

/-- In the log of a call, a step that builds or appends a record comes after the steps that
mark the location descriptor and the name constant of that record. -/
theorem Call.runT_order (CGM : CodeGenModule) (M : Module) (C : Call) (i : Nat) (E : Event)
    (R : MDNode) (hi : (Call.runT CGM ⟨M, []⟩ C).Log[i]? = some E) (hR : E.Op = some R) :
    (∀ P : GlobalRef, R.LocDescr = some P →
      ∃ j : Nat, j < i ∧
        (Call.runT CGM ⟨M, []⟩ C).Log[j]? = some (Event.AddCompilerUsedGlobal P)) ∧
    (∀ P : GlobalRef, R.GlobalName = some P →
      ∃ j : Nat, j < i ∧
        (Call.runT CGM ⟨M, []⟩ C).Log[j]? = some (Event.AddCompilerUsedGlobal P)) := by
  obtain ⟨Loc, Name, IsDynInit, IsBlacklisted, hE, -⟩ := Call.runT_eq_report CGM ⟨M, []⟩ C
  rw [hE] at hi ⊢
  cases hA : CGM.SanitizeAddress with
  | false =>
    simp [reportGlobalToASanT, hA] at hi
  | true =>
    obtain ⟨Pre, R0, hLog, hPre, hL, hN, -⟩ :=
      reportGlobalToASanT_Log CGM ⟨M, []⟩ C.GV Loc Name IsDynInit IsBlacklisted hA
    simp only [List.nil_append] at hLog
    rw [hLog] at hi ⊢
    obtain ⟨hEq, hLe⟩ := record_step_after_prefix Pre R0 _ hPre i E R hi hR
    have key : ∀ P : GlobalRef, Event.AddCompilerUsedGlobal P ∈ Pre →
        ∃ j : Nat, j < i ∧
          (Pre ++ [Event.MDNodeGet R0, Event.GetOrInsertNamedMetadata "llvm.asan.globals",
            Event.AddOperand "llvm.asan.globals" R0])[j]? =
              some (Event.AddCompilerUsedGlobal P) := by
      intro P hP
      obtain ⟨j, hj⟩ := List.mem_iff_getElem?.1 hP
      have hjLt : j < Pre.length := (List.getElem?_eq_some.1 hj).1
      exact ⟨j, Nat.lt_of_lt_of_le hjLt hLe, by rw [List.getElem?_append_left hjLt]; exact hj⟩
    rw [hEq]
    exact ⟨fun P hP => key P (hL P hP), fun P hP => key P (hN P hP)⟩

/-- With the mode on, the last step of a call appends the record that the call adds to the
table. -/
theorem Call.runT_last (CGM : CodeGenModule) (M : Module) (C : Call)
    (hA : CGM.SanitizeAddress = true) :
    ∃ R : MDNode,
      (Call.runT CGM ⟨M, []⟩ C).Log.getLast? =
        some (Event.AddOperand "llvm.asan.globals" R) ∧
      asanGlobals (Call.run CGM M C) = asanGlobals M ++ [R] := by
  obtain ⟨Loc, Name, IsDynInit, IsBlacklisted, hE, hE1⟩ := Call.runT_eq_report CGM ⟨M, []⟩ C
  obtain ⟨Pre, R0, hLog, -, -, -, hT⟩ :=
    reportGlobalToASanT_Log CGM ⟨M, []⟩ C.GV Loc Name IsDynInit IsBlacklisted hA
  refine ⟨R0, ?_, ?_⟩
  · rw [hE, hLog]
    simp
  · rw [show Call.run CGM M C = _ from hE1]
    exact hT

/-- The recorded call ends in the module of the plain call, and its log replays to it. -/
theorem Call.runT_M (CGM : CodeGenModule) (M : Module) (C : Call) :
    (Call.runT CGM ⟨M, []⟩ C).M = Call.run CGM M C ∧
    replay M (Call.runT CGM ⟨M, []⟩ C).Log = Call.run CGM M C := by
  obtain ⟨Loc, Name, IsDynInit, IsBlacklisted, hE, hE1⟩ := Call.runT_eq_report CGM ⟨M, []⟩ C
  have h1 : (Call.runT CGM ⟨M, []⟩ C).M = Call.run CGM M C := by
    rw [hE, show Call.run CGM M C = _ from hE1]
    exact reportGlobalToASanT_M CGM ⟨M, []⟩ C.GV Loc Name IsDynInit IsBlacklisted
  refine ⟨h1, ?_⟩
  rw [← h1, hE]
  exact reportGlobalToASanT_replay CGM M ⟨M, []⟩ C.GV Loc Name IsDynInit IsBlacklisted rfl

/-- The preservation property holds after every step of a call that starts in a module where
it holds. -/
theorem Call.runT_prefix_Preserved (CGM : CodeGenModule) (M : Module) (C : Call)
    (h : Preserved M) (k : Nat) :
    Preserved (replay M ((Call.runT CGM ⟨M, []⟩ C).Log.take k)) := by
  by_cases hk : (Call.runT CGM ⟨M, []⟩ C).Log.length ≤ k
  · rw [List.take_of_length_le hk, (Call.runT_M CGM M C).2]
    exact Call.run_Preserved CGM M C h
  · have hk1 : k < (Call.runT CGM ⟨M, []⟩ C).Log.length := Nat.lt_of_not_le hk
    obtain ⟨Loc, Name, IsDynInit, IsBlacklisted, hE, -⟩ := Call.runT_eq_report CGM ⟨M, []⟩ C
    rw [hE] at hk1 ⊢
    cases hA : CGM.SanitizeAddress with
    | false =>
      simp [reportGlobalToASanT, hA] at hk1
    | true =>
      obtain ⟨Pre, R0, hLog, hPre, -, -, -⟩ :=
        reportGlobalToASanT_Log CGM ⟨M, []⟩ C.GV Loc Name IsDynInit IsBlacklisted hA
      have hLog1 : (reportGlobalToASanT CGM ⟨M, []⟩ C.GV Loc Name IsDynInit IsBlacklisted).Log =
          (Pre ++ [Event.MDNodeGet R0,
            Event.GetOrInsertNamedMetadata "llvm.asan.globals"]) ++
            [Event.AddOperand "llvm.asan.globals" R0] := by
        rw [hLog]
        simp
      rw [hLog1] at hk1 ⊢
      have hk2 : k ≤ (Pre ++ [Event.MDNodeGet R0,
          Event.GetOrInsertNamedMetadata "llvm.asan.globals"]).length := by
        simp only [List.length_append, List.length_cons, List.length_nil] at hk1 ⊢
        omega
      rw [List.take_append_of_le_length hk2]
      apply replay_Preserved _ _ M h
      intro E hE1 Name1 Op hEq
      have hMem := List.mem_of_mem_take hE1
      rcases List.mem_append.1 hMem with hIn | hIn
      · have := hPre E hIn
        rw [hEq] at this
        simp [Event.Op] at this
      · rw [hEq] at hIn
        simp at hIn

/-- C14: the preservation invariant.  After any sequence of the three operations, started in
a module whose `llvm.asan.globals` table is empty, every location descriptor and every name
constant that a record of the table refers to is in `llvm.compiler.used` (whatever the list
held at the start), and every single operation keeps the property, for any collaborators.
Within one call, recorded step by step: the log replays to the module that the call returns;
with the mode on its last step appends the record that the call adds to the table; every step
that builds or appends a record comes later in the log than the steps that add the location
descriptor and the name constant of that record to `llvm.compiler.used`; and the property holds
after every step of the call, not only at its end. -/
theorem preservation_invariant (CGM : CodeGenModule) (M0 : Module) (Cs : List Call)
    (hT : asanGlobals M0 = []) :
    Preserved (runCalls CGM M0 Cs) ∧
    (∀ (CGM1 : CodeGenModule) (M : Module) (C : Call),
      Preserved M → Preserved (Call.run CGM1 M C)) ∧
    (∀ (CGM1 : CodeGenModule) (M : Module) (C : Call),
      (Call.runT CGM1 ⟨M, []⟩ C).M = Call.run CGM1 M C ∧
      replay M (Call.runT CGM1 ⟨M, []⟩ C).Log = Call.run CGM1 M C ∧
      (CGM1.SanitizeAddress = true →
        ∃ R : MDNode,
          (Call.runT CGM1 ⟨M, []⟩ C).Log.getLast? =
            some (Event.AddOperand "llvm.asan.globals" R) ∧
          asanGlobals (Call.run CGM1 M C) = asanGlobals M ++ [R]) ∧
      (∀ (i : Nat) (E : Event) (R : MDNode),
        (Call.runT CGM1 ⟨M, []⟩ C).Log[i]? = some E → E.Op = some R →
        (∀ P : GlobalRef, R.LocDescr = some P →
          ∃ j : Nat, j < i ∧
            (Call.runT CGM1 ⟨M, []⟩ C).Log[j]? = some (Event.AddCompilerUsedGlobal P)) ∧
        (∀ P : GlobalRef, R.GlobalName = some P →
          ∃ j : Nat, j < i ∧
            (Call.runT CGM1 ⟨M, []⟩ C).Log[j]? = some (Event.AddCompilerUsedGlobal P))) ∧
      (Preserved M →
        ∀ k : Nat, Preserved (replay M ((Call.runT CGM1 ⟨M, []⟩ C).Log.take k)))) := by
  refine ⟨runCalls_Preserved CGM Cs M0 ?_, Call.run_Preserved, ?_⟩
  · intro R hR
    rw [hT] at hR
    simp at hR
  · intro CGM1 M C
    exact ⟨(Call.runT_M CGM1 M C).1, (Call.runT_M CGM1 M C).2, Call.runT_last CGM1 M C,
      Call.runT_order CGM1 M C, Call.runT_prefix_Preserved CGM1 M C⟩

theorem preservation_invariant_witness :
    asanGlobals sampleModule = [] ∧
    Preserved
      (runCalls sampleCGM sampleModule
        [Call.report 0 7 "g" true false, Call.disable 1, Call.reportDecl 1 ⟨8, "ns::h"⟩ false]) ∧
    (Call.runT sampleCGM ⟨sampleModule, []⟩ (Call.report 0 7 "g" true false)).Log =
      [Event.NewGlobalVariable true LinkageTypes.PrivateLinkage (Initializer.CString "a.c"),
       Event.SetUnnamedAddr 2 true,
       Event.NewGlobalVariable true LinkageTypes.PrivateLinkage
         (Initializer.AnonStruct
           [Constant.GlobalAddress 2, Constant.ConstantInt 32 10, Constant.ConstantInt 32 3]),
       Event.SetUnnamedAddr 3 true,
       Event.AddCompilerUsedGlobal 3,
       Event.NewGlobalVariable true LinkageTypes.PrivateLinkage (Initializer.CString "g"),
       Event.SetUnnamedAddr 4 true,
       Event.AddCompilerUsedGlobal 4,
       Event.MDNodeGet ⟨0, some 3, some 4, true, false⟩,
       Event.GetOrInsertNamedMetadata "llvm.asan.globals",
       Event.AddOperand "llvm.asan.globals" ⟨0, some 3, some 4, true, false⟩] ∧
    (∃ j : Nat, j < 10 ∧
      (Call.runT sampleCGM ⟨sampleModule, []⟩ (Call.report 0 7 "g" true false)).Log[j]? =
        some (Event.AddCompilerUsedGlobal 3)) ∧
    (∃ j : Nat, j < 10 ∧
      (Call.runT sampleCGM ⟨sampleModule, []⟩ (Call.report 0 7 "g" true false)).Log[j]? =
        some (Event.AddCompilerUsedGlobal 4)) :=
  have h := preservation_invariant sampleCGM sampleModule
    [Call.report 0 7 "g" true false, Call.disable 1, Call.reportDecl 1 ⟨8, "ns::h"⟩ false] rfl
  have hO := (h.2.2 sampleCGM sampleModule (Call.report 0 7 "g" true false)).2.2.2.1 10
    (Event.AddOperand "llvm.asan.globals" ⟨0, some 3, some 4, true, false⟩)
    ⟨0, some 3, some 4, true, false⟩ rfl rfl
  ⟨rfl, h.1, rfl, hO.1 3 rfl, hO.2 4 rfl⟩

/-- C15, as stated, fails: registering global 0 at `a.c:10:3` under the name `g` creates three
globals (the filename string at 2, the location descriptor at 3, the name string at 4), and
the filename string is not added to `llvm.compiler.used`. -/
theorem report_creates_three_globals_counterexample :
    sampleModule.GlobalList.length = 2 ∧
    (reportGlobalToASan sampleCGM sampleModule 0 7 "g" true false).GlobalList.length = 2 + 3 ∧
    deref (reportGlobalToASan sampleCGM sampleModule 0 7 "g" true false) 2 =
      some ⟨true, LinkageTypes.PrivateLinkage, true, Initializer.CString "a.c"⟩ ∧
    (reportGlobalToASan sampleCGM sampleModule 0 7 "g" true false).LLVMCompilerUsed = [3, 4] ∧
    2 ∉ (reportGlobalToASan sampleCGM sampleModule 0 7 "g" true false).LLVMCompilerUsed := by
  decide

/-- C15, amended: every call of the explicit form creates at most three new globals (the
filename string, the location descriptor and the name constant) and adds at most two entries to
`llvm.compiler.used`, each of them a global created by the call; a created global that is not
added is the filename string, whose address is the first field of the location descriptor
created right after it, which is added. -/
theorem report_creates_at_most_three_globals (CGM : CodeGenModule) (M : Module)
    (GV : GlobalRef) (Loc : SourceLocation) (Name : String) (IsDynInit IsBlacklisted : Bool) :
    ∃ (Created : List GlobalVariable) (Marked : List GlobalRef),
      (reportGlobalToASan CGM M GV Loc Name IsDynInit IsBlacklisted).GlobalList =
        M.GlobalList ++ Created ∧
      Created.length ≤ 3 ∧
      (reportGlobalToASan CGM M GV Loc Name IsDynInit IsBlacklisted).LLVMCompilerUsed =
        M.LLVMCompilerUsed ++ Marked ∧
      Marked.length ≤ 2 ∧
      (∀ P ∈ Marked, M.GlobalList.length ≤ P ∧ P < M.GlobalList.length + Created.length) ∧
      (∀ P : GlobalRef, M.GlobalList.length ≤ P → P < M.GlobalList.length + Created.length →
        P ∈ Marked ∨
        (P + 1 ∈ Marked ∧
          ∃ (Filename : String) (Line Col : Nat),
            deref (reportGlobalToASan CGM M GV Loc Name IsDynInit IsBlacklisted) P =
              some ⟨true, LinkageTypes.PrivateLinkage, true, Initializer.CString Filename⟩ ∧
            deref (reportGlobalToASan CGM M GV Loc Name IsDynInit IsBlacklisted) (P + 1) =
              some ⟨true, LinkageTypes.PrivateLinkage, true,
                Initializer.AnonStruct
                  [Constant.GlobalAddress P, Constant.ConstantInt 32 Line,
                   Constant.ConstantInt 32 Col]⟩)) := by
  cases hA : CGM.SanitizeAddress with
  | false =>
    have hM : reportGlobalToASan CGM M GV Loc Name IsDynInit IsBlacklisted = M := by
      simp [reportGlobalToASan, hA]
    rw [hM]
    refine ⟨[], [], by simp, by simp, by simp, by simp, by simp, ?_⟩
    intro P h1 h2
    exact absurd h2 (Nat.not_lt.2 h1)
  | true =>
    cases hS : (IsBlacklisted || CGM.isIn GV "") with
    | true =>
      rw [reportGlobalToASan_suppressed CGM M GV Loc Name IsDynInit IsBlacklisted hA hS]
      refine ⟨[], [], by simp [addOperand_GlobalList], by simp,
        by simp [addOperand_LLVMCompilerUsed], by simp, by simp, ?_⟩
      intro P h1 h2
      exact absurd h2 (Nat.not_lt.2 h1)
    | false =>
      obtain ⟨LocDescr, GlobalName, Created, -, hG, hU, hShape⟩ :=
        reportGlobalToASan_unsuppressed_shape CGM M GV Loc Name IsDynInit IsBlacklisted hA hS
      refine ⟨Created, LocDescr.toList ++ GlobalName.toList, hG, ?_, hU, ?_, ?_, ?_⟩
      · rcases hShape with ⟨-, -, hC⟩ | ⟨-, -, hC⟩ | ⟨-, -, F, -, hC⟩ | ⟨-, -, F, -, hC⟩ <;>
          simp [hC]
      · rcases hShape with ⟨hL, hN, -⟩ | ⟨hL, hN, -⟩ | ⟨hL, hN, -⟩ | ⟨hL, hN, -⟩ <;>
          simp [hL, hN]
      · rcases hShape with ⟨hL, hN, hC⟩ | ⟨hL, hN, hC⟩ | ⟨hL, hN, F, -, hC⟩ |
          ⟨hL, hN, F, -, hC⟩ <;> simp [hL, hN, hC]
      · intro P h1 h2
        rcases hShape with ⟨hL, hN, hC⟩ | ⟨hL, hN, hC⟩ | ⟨hL, hN, F, -, hC⟩ |
          ⟨hL, hN, F, -, hC⟩
        · rw [hC] at h2
          exact absurd h2 (Nat.not_lt.2 h1)
        · rw [hC] at h2
          have hP := eq_of_le_of_lt_add_one _ _ h1 h2
          left
          simp [hL, hN, hP]
        · rw [hC] at h2
          rcases eq_or_of_le_of_lt_add_two _ _ h1 h2 with hP | hP
          · right
            refine ⟨by simp [hL, hN, hP], F, (CGM.getPresumedLoc Loc).Line % 2 ^ 32,
              (CGM.getPresumedLoc Loc).Col % 2 ^ 32, ?_, ?_⟩
            · rw [deref, hG, hC, hP]
              exact getElem?_append_add M.GlobalList _ 0
            · rw [deref, hG, hC, hP, getElem?_append_add]
              rfl
          · left
            simp [hL, hN, hP]
        · rw [hC] at h2
          rcases eq_or_of_le_of_lt_add_three _ _ h1 h2 with hP | hP | hP
          · right
            refine ⟨by simp [hL, hN, hP], F, (CGM.getPresumedLoc Loc).Line % 2 ^ 32,
              (CGM.getPresumedLoc Loc).Col % 2 ^ 32, ?_, ?_⟩
            · rw [deref, hG, hC, hP]
              exact getElem?_append_add M.GlobalList _ 0
            · rw [deref, hG, hC, hP, getElem?_append_add]
              rfl
          · left
            simp [hL, hN, hP]
          · left
            simp [hL, hN, hP]

theorem report_creates_at_most_three_globals_witness :
    ∃ (Created : List GlobalVariable) (Marked : List GlobalRef),
      (reportGlobalToASan sampleCGM sampleModule 0 7 "g" true false).GlobalList =
        sampleModule.GlobalList ++ Created ∧
      Created.length ≤ 3 ∧
      (reportGlobalToASan sampleCGM sampleModule 0 7 "g" true false).LLVMCompilerUsed =
        sampleModule.LLVMCompilerUsed ++ Marked ∧
      Marked.length ≤ 2 ∧
      (∀ P ∈ Marked,
        sampleModule.GlobalList.length ≤ P ∧
        P < sampleModule.GlobalList.length + Created.length) ∧
      (∀ P : GlobalRef, sampleModule.GlobalList.length ≤ P →
        P < sampleModule.GlobalList.length + Created.length →
        P ∈ Marked ∨
        (P + 1 ∈ Marked ∧
          ∃ (Filename : String) (Line Col : Nat),
            deref (reportGlobalToASan sampleCGM sampleModule 0 7 "g" true false) P =
              some ⟨true, LinkageTypes.PrivateLinkage, true, Initializer.CString Filename⟩ ∧
            deref (reportGlobalToASan sampleCGM sampleModule 0 7 "g" true false) (P + 1) =
              some ⟨true, LinkageTypes.PrivateLinkage, true,
                Initializer.AnonStruct
                  [Constant.GlobalAddress P, Constant.ConstantInt 32 Line,
                   Constant.ConstantInt 32 Col]⟩)) :=
  report_creates_at_most_three_globals sampleCGM sampleModule 0 7 "g" true false

/-- C16: with address-sanitizer mode on, each call of the explicit form extends
`llvm.compiler.used` by exactly the present optional fields of the record it appends, the
location descriptor before the name constant (so by at most two entries), after the entries
the list had.  When the record has a location descriptor, the filename string that the
descriptor refers to is the global created just before it, and it is not among the added
entries (nor in the list at all, if the list only held globals of the module before). -/
theorem report_extends_compiler_used (CGM : CodeGenModule) (M : Module) (GV : GlobalRef)
    (Loc : SourceLocation) (Name : String) (IsDynInit IsBlacklisted : Bool)
    (hA : CGM.SanitizeAddress = true) :
    ∃ R : MDNode,
      asanGlobals (reportGlobalToASan CGM M GV Loc Name IsDynInit IsBlacklisted) =
        asanGlobals M ++ [R] ∧
      (reportGlobalToASan CGM M GV Loc Name IsDynInit IsBlacklisted).LLVMCompilerUsed =
        M.LLVMCompilerUsed ++ (R.LocDescr.toList ++ R.GlobalName.toList) ∧
      (R.LocDescr.toList ++ R.GlobalName.toList).length ≤ 2 ∧
      (∀ P : GlobalRef, R.LocDescr = some P →
        P = M.GlobalList.length + 1 ∧
        (∃ (Filename : String) (Line Col : Nat),
          deref (reportGlobalToASan CGM M GV Loc Name IsDynInit IsBlacklisted)
              M.GlobalList.length =
            some ⟨true, LinkageTypes.PrivateLinkage, true, Initializer.CString Filename⟩ ∧
          deref (reportGlobalToASan CGM M GV Loc Name IsDynInit IsBlacklisted) P =
            some ⟨true, LinkageTypes.PrivateLinkage, true,
              Initializer.AnonStruct
                [Constant.GlobalAddress M.GlobalList.length, Constant.ConstantInt 32 Line,
                 Constant.ConstantInt 32 Col]⟩) ∧
        M.GlobalList.length ∉ R.LocDescr.toList ++ R.GlobalName.toList ∧
        ((∀ Q ∈ M.LLVMCompilerUsed, Q < M.GlobalList.length) →
          M.GlobalList.length ∉
            (reportGlobalToASan CGM M GV Loc Name IsDynInit IsBlacklisted).LLVMCompilerUsed)) := by
  cases hS : (IsBlacklisted || CGM.isIn GV "") with
  | true =>
    rw [reportGlobalToASan_suppressed CGM M GV Loc Name IsDynInit IsBlacklisted hA hS]
    refine ⟨_, asanGlobals_addOperand M _, by simp [addOperand_LLVMCompilerUsed], by simp, ?_⟩
    intro P hP
    simp at hP
  | false =>
    obtain ⟨LocDescr, GlobalName, Created, hT, hG, hU, hShape⟩ :=
      reportGlobalToASan_unsuppressed_shape CGM M GV Loc Name IsDynInit IsBlacklisted hA hS
    have hOld : ∀ n : Nat, (∀ Q ∈ M.LLVMCompilerUsed, Q < n) → n ∉ M.LLVMCompilerUsed :=
      fun n h hn => Nat.lt_irrefl n (h n hn)
    refine ⟨_, hT, hU, ?_, ?_⟩
    · rcases hShape with ⟨hL, hN, -⟩ | ⟨hL, hN, -⟩ | ⟨hL, hN, -⟩ | ⟨hL, hN, -⟩ <;>
        simp [hL, hN]
    · intro P hP
      rw [hU]
      rcases hShape with ⟨hL, hN, hC⟩ | ⟨hL, hN, hC⟩ | ⟨hL, hN, F, -, hC⟩ |
        ⟨hL, hN, F, -, hC⟩
      · simp [hL] at hP
      · simp [hL] at hP
      · have hP1 : P = M.GlobalList.length + 1 := by
          simp only [hL] at hP
          exact (Option.some.inj hP).symm
        refine ⟨hP1, ⟨F, (CGM.getPresumedLoc Loc).Line % 2 ^ 32,
          (CGM.getPresumedLoc Loc).Col % 2 ^ 32, ?_, ?_⟩, ?_, ?_⟩
        · rw [deref, hG, hC]
          exact getElem?_append_add M.GlobalList _ 0
        · rw [deref, hG, hC, hP1, getElem?_append_add]
          rfl
        · simp [hL, hN]
        · intro hW
          simp [hL, hN, hOld _ hW]
      · have hP1 : P = M.GlobalList.length + 1 := by
          simp only [hL] at hP
          exact (Option.some.inj hP).symm
        refine ⟨hP1, ⟨F, (CGM.getPresumedLoc Loc).Line % 2 ^ 32,
          (CGM.getPresumedLoc Loc).Col % 2 ^ 32, ?_, ?_⟩, ?_, ?_⟩
        · rw [deref, hG, hC]
          exact getElem?_append_add M.GlobalList _ 0
        · rw [deref, hG, hC, hP1, getElem?_append_add]
          rfl
        · simp [hL, hN]
        · intro hW
          simp [hL, hN, hOld _ hW]

theorem report_extends_compiler_used_witness :
    sampleCGM.SanitizeAddress = true ∧
    ∃ R : MDNode,
      asanGlobals (reportGlobalToASan sampleCGM sampleModule 0 7 "g" true false) =
        asanGlobals sampleModule ++ [R] ∧
      (reportGlobalToASan sampleCGM sampleModule 0 7 "g" true false).LLVMCompilerUsed =
        sampleModule.LLVMCompilerUsed ++ (R.LocDescr.toList ++ R.GlobalName.toList) ∧
      (R.LocDescr.toList ++ R.GlobalName.toList).length ≤ 2 ∧
      (∀ P : GlobalRef, R.LocDescr = some P →
        P = sampleModule.GlobalList.length + 1 ∧
        (∃ (Filename : String) (Line Col : Nat),
          deref (reportGlobalToASan sampleCGM sampleModule 0 7 "g" true false)
              sampleModule.GlobalList.length =
            some ⟨true, LinkageTypes.PrivateLinkage, true, Initializer.CString Filename⟩ ∧
          deref (reportGlobalToASan sampleCGM sampleModule 0 7 "g" true false) P =
            some ⟨true, LinkageTypes.PrivateLinkage, true,
              Initializer.AnonStruct
                [Constant.GlobalAddress sampleModule.GlobalList.length,
                 Constant.ConstantInt 32 Line, Constant.ConstantInt 32 Col]⟩) ∧
        sampleModule.GlobalList.length ∉ R.LocDescr.toList ++ R.GlobalName.toList ∧
        ((∀ Q ∈ sampleModule.LLVMCompilerUsed, Q < sampleModule.GlobalList.length) →
          sampleModule.GlobalList.length ∉
            (reportGlobalToASan sampleCGM sampleModule 0 7 "g" true false).LLVMCompilerUsed)) :=
  ⟨rfl, report_extends_compiler_used sampleCGM sampleModule 0 7 "g" true false rfl⟩

end SanitizerMetadata
